import Mathlib

/-!
# Verification of the news-automation core: cache-aside client and SSE broadcaster

Shallow embedding of `src/lib/redis.ts` (Redis cache-aside client with metrics,
connection retry state machine, cache key builders) and of the SSE connection
registry / broadcaster in `src/lib/migrate-bookmarks.ts`.

Conventions of the embedding:
* A JavaScript call that can throw is modelled as an `Except Unit` value handed
  to the embedded function as an input (the outcome of the underlying I/O),
  and a `try`/`catch` in the source becomes a `match` on that value.
* JavaScript numbers are modelled as `ℚ` (`averageResponseTime`, response
  times); a JS division that produces `NaN`/`Infinity` is modelled by `Option ℚ`
  with `none` for the non-finite outcomes.
* JS string truthiness (`''` is falsy) is modelled explicitly.
-/

set_option maxRecDepth 4000

/-! ## Cache metrics (redis.ts lines 10-22) -/

/-- `PerformanceMetrics` from redis.ts. `averageResponseTime` is a JS number,
modelled as `ℚ`. -/
structure PerformanceMetrics where
  cacheHits : Nat
  cacheMisses : Nat
  totalOperations : Nat
  averageResponseTime : ℚ
deriving Repr, DecidableEq

/-- The module-level `metrics` object at process start (redis.ts lines 17-22). -/
def initialMetrics : PerformanceMetrics :=
  { cacheHits := 0, cacheMisses := 0, totalOperations := 0, averageResponseTime := 0 }

/-- The `operationType` argument of `RedisCache.trackOperation`. -/
inductive OpType where
  | hit | miss | set | delete
deriving Repr, DecidableEq

/-- JS truthiness of a `string | null` value: `null` and `''` are falsy. -/
def strTruthy : Option String → Bool
  | some s => s != ""
  | none => false

namespace RedisCache

/-- `RedisCache.trackOperation` (redis.ts lines 110-134): runs the operation;
on success increments `totalOperations`, recomputes the running mean
`averageResponseTime`, and increments the hit/miss counter according to
`operationType`; on failure rethrows without touching the metrics. -/
def trackOperation {α : Type} (operation : Except Unit α) (operationType : OpType)
    (responseTime : ℚ) (m : PerformanceMetrics) : Except Unit (α × PerformanceMetrics) :=
  match operation with
  | .error e => .error e
  | .ok result =>
    let total := m.totalOperations + 1
    .ok (result,
      { cacheHits := if operationType = .hit then m.cacheHits + 1 else m.cacheHits
        cacheMisses := if operationType = .miss then m.cacheMisses + 1 else m.cacheMisses
        totalOperations := total
        averageResponseTime :=
          (m.averageResponseTime * ((total : ℚ) - 1) + responseTime) / (total : ℚ) })

/-- `RedisCache.get` (redis.ts lines 139-160).
Inputs: `client` is the result of `getRedisClient()` (`none` = unavailable);
`storeGet` the outcome of `client.get(key)` (`.error` = the call threw);
`parse` the outcome of `JSON.parse` on a given string (`.error` = invalid
JSON); `responseTime` the elapsed time measured by `trackOperation`.
Returns the value returned to the caller together with the updated metrics;
every catch branch of the source returns `null` and leaves the metrics
unchanged. -/
def get {J : Type} (client : Option Unit) (storeGet : Except Unit (Option String))
    (parse : String → Except Unit J) (responseTime : ℚ) (m : PerformanceMetrics) :
    Option J × PerformanceMetrics :=
  match client with
  | none => (none, m)
  | some _ =>
    match storeGet with
    | .error _ => (none, m)
    | .ok value =>
      let operationType := if strTruthy value then OpType.hit else OpType.miss
      let inner : Except Unit (Option J) :=
        if strTruthy value then
          match value with
          | some v => (parse v).map some
          | none => .ok none
        else .ok none
      match trackOperation inner operationType responseTime m with
      | .ok r => r
      | .error _ => (none, m)

/-- `RedisCache.set` (redis.ts lines 165-179). `stringify` is the outcome of
`JSON.stringify(value)`, `storeSetEx` the outcome of `client.setEx`. -/
def set (client : Option Unit) (stringify : Except Unit Unit) (storeSetEx : Except Unit Unit)
    (responseTime : ℚ) (m : PerformanceMetrics) : Bool × PerformanceMetrics :=
  match client with
  | none => (false, m)
  | some _ =>
    let inner : Except Unit Bool :=
      match stringify with
      | .error e => .error e
      | .ok _ => storeSetEx.map (fun _ => true)
    match trackOperation inner OpType.set responseTime m with
    | .ok r => r
    | .error _ => (false, m)

/-- `RedisCache.del` (redis.ts lines 184-198). `storeDel` is the outcome of
`client.del(key)` (number of keys removed). -/
def del (client : Option Unit) (storeDel : Except Unit Nat) (responseTime : ℚ)
    (m : PerformanceMetrics) : Bool × PerformanceMetrics :=
  match client with
  | none => (false, m)
  | some _ =>
    let inner : Except Unit Bool := storeDel.map (fun n => decide (0 < n))
    match trackOperation inner OpType.delete responseTime m with
    | .ok r => r
    | .error _ => (false, m)

/-- `RedisCache.exists` (redis.ts lines 203-214); named `existsKey` here because
`exists` is not a usable Lean identifier. Note: does not call `trackOperation`,
so it never touches the metrics (they are passed through for sequencing). -/
def existsKey (client : Option Unit) (storeRes : Except Unit Nat)
    (m : PerformanceMetrics) : Bool × PerformanceMetrics :=
  match client with
  | none => (false, m)
  | some _ =>
    match storeRes with
    | .ok n => (decide (0 < n), m)
    | .error _ => (false, m)

/-- `RedisCache.sAdd` (redis.ts lines 219-231). No metrics tracking. -/
def sAdd (client : Option Unit) (storeRes : Except Unit Nat)
    (m : PerformanceMetrics) : Bool × PerformanceMetrics :=
  match client with
  | none => (false, m)
  | some _ =>
    match storeRes with
    | .ok n => (decide (0 < n), m)
    | .error _ => (false, m)

/-- `RedisCache.sRem` (redis.ts lines 233-245). No metrics tracking. -/
def sRem (client : Option Unit) (storeRes : Except Unit Nat)
    (m : PerformanceMetrics) : Bool × PerformanceMetrics :=
  match client with
  | none => (false, m)
  | some _ =>
    match storeRes with
    | .ok n => (decide (0 < n), m)
    | .error _ => (false, m)

/-- `RedisCache.sIsMember` (redis.ts lines 247-259). No metrics tracking. -/
def sIsMember (client : Option Unit) (storeRes : Except Unit Nat)
    (m : PerformanceMetrics) : Bool × PerformanceMetrics :=
  match client with
  | none => (false, m)
  | some _ =>
    match storeRes with
    | .ok n => (decide (0 < n), m)
    | .error _ => (false, m)

/-- `RedisCache.sMembers` (redis.ts lines 261-273). No metrics tracking. -/
def sMembers (client : Option Unit) (storeRes : Except Unit (List String))
    (m : PerformanceMetrics) : List String × PerformanceMetrics :=
  match client with
  | none => ([], m)
  | some _ =>
    match storeRes with
    | .ok members => (members, m)
    | .error _ => ([], m)

/-- `RedisCache.flushAll` (redis.ts lines 292-304). No metrics tracking. -/
def flushAll (client : Option Unit) (storeRes : Except Unit Unit)
    (m : PerformanceMetrics) : Bool × PerformanceMetrics :=
  match client with
  | none => (false, m)
  | some _ =>
    match storeRes with
    | .ok _ => (true, m)
    | .error _ => (false, m)

/-- `Math.round` of JS: rounds half toward positive infinity. -/
def jsRound (q : ℚ) : ℤ := ⌊q + 1 / 2⌋

/-- JS division producing a finite number, `none` for `NaN` (`0/0`) and
`±Infinity` (`x/0`, `x ≠ 0`). -/
def jsDiv (a b : ℚ) : Option ℚ := if b = 0 then none else some (a / b)

/-- The `hitRate` field computed by `RedisCache.getMetrics` (redis.ts lines
278-287): `totalOperations > 0 ? (cacheHits / (cacheHits + cacheMisses)) * 100 : 0`,
then `Math.round(hitRate * 100) / 100`. `none` models the `NaN` produced when
the ternary guard passes but `cacheHits + cacheMisses = 0`. -/
def getMetricsHitRate (m : PerformanceMetrics) : Option ℚ :=
  if 0 < m.totalOperations then
    (jsDiv (m.cacheHits : ℚ) ((m.cacheHits : ℚ) + (m.cacheMisses : ℚ))).map
      (fun r => (jsRound (r * 100 * 100) : ℚ) / 100)
  else some 0

end RedisCache

/-! ## Sequences of cache operations (for the metrics invariants) -/

/-- One completed public cache operation, carrying the outcomes of its
underlying store calls: `client` is whether `getRedisClient()` returned a
client, the `Except` arguments are the outcomes of the store calls, `parseOk`
whether `JSON.parse` succeeds on the fetched value. -/
inductive CacheOp where
  | getOp (client : Bool) (storeGet : Except Unit (Option String)) (parseOk : Bool) (rt : ℚ)
  | setOp (client : Bool) (stringify : Except Unit Unit) (store : Except Unit Unit) (rt : ℚ)
  | delOp (client : Bool) (store : Except Unit Nat) (rt : ℚ)
  | existsOp (client : Bool) (store : Except Unit Nat)
  | sAddOp (client : Bool) (store : Except Unit Nat)
  | sRemOp (client : Bool) (store : Except Unit Nat)
  | sIsMemberOp (client : Bool) (store : Except Unit Nat)
  | sMembersOp (client : Bool) (store : Except Unit (List String))
  | flushAllOp (client : Bool) (store : Except Unit Unit)
deriving Repr

/-- Effect of one cache operation on the module-level `metrics` object. -/
def applyCacheOp (m : PerformanceMetrics) : CacheOp → PerformanceMetrics
  | .getOp client storeGet parseOk rt =>
    (RedisCache.get (J := Unit) (if client then some () else none) storeGet
      (fun _ => if parseOk then .ok () else .error ()) rt m).2
  | .setOp client stringify store rt =>
    (RedisCache.set (if client then some () else none) stringify store rt m).2
  | .delOp client store rt =>
    (RedisCache.del (if client then some () else none) store rt m).2
  | .existsOp client store =>
    (RedisCache.existsKey (if client then some () else none) store m).2
  | .sAddOp client store =>
    (RedisCache.sAdd (if client then some () else none) store m).2
  | .sRemOp client store =>
    (RedisCache.sRem (if client then some () else none) store m).2
  | .sIsMemberOp client store =>
    (RedisCache.sIsMember (if client then some () else none) store m).2
  | .sMembersOp client store =>
    (RedisCache.sMembers (if client then some () else none) store m).2
  | .flushAllOp client store =>
    (RedisCache.flushAll (if client then some () else none) store m).2

/-- Metrics state after a sequence of completed cache operations, starting
from metrics state `m`. -/
def runCacheOps (m : PerformanceMetrics) : List CacheOp → PerformanceMetrics
  | [] => m
  | op :: rest => runCacheOps (applyCacheOp m op) rest

/-- Whether one operation completes a `get` recording a cache hit: client
present, store call succeeded, fetched value truthy, `JSON.parse` succeeded. -/
def opHit : CacheOp → Nat
  | .getOp true (.ok v) true _ => if strTruthy v then 1 else 0
  | _ => 0

/-- Whether one operation completes a `get` recording a cache miss: client
present, store call succeeded, fetched value falsy. -/
def opMiss : CacheOp → Nat
  | .getOp true (.ok v) _ _ => if strTruthy v then 0 else 1
  | _ => 0

/-- Whether one operation is a `set`/`del` whose underlying store call
completed successfully (these are exactly the non-`get` operations routed
through `trackOperation`). -/
def opSetDel : CacheOp → Nat
  | .setOp true (.ok _) (.ok _) _ => 1
  | .delOp true (.ok _) _ => 1
  | _ => 0

/-- Whether one operation is a completed non-`get` operation as the claim
words it (modelled from the spec: every completed `set`, `del`, `exists`,
`sAdd`, `sRem`, `sIsMember`, `sMembers`, `flushAll` counts). -/
def opSpecNonGet : CacheOp → Nat
  | .setOp true (.ok _) (.ok _) _ => 1
  | .delOp true (.ok _) _ => 1
  | .existsOp true (.ok _) => 1
  | .sAddOp true (.ok _) => 1
  | .sRemOp true (.ok _) => 1
  | .sIsMemberOp true (.ok _) => 1
  | .sMembersOp true (.ok _) => 1
  | .flushAllOp true (.ok _) => 1
  | _ => 0

/-- Hits recorded over a sequence of completed operations. -/
def hitCount (ops : List CacheOp) : Nat := (ops.map opHit).sum

/-- Misses recorded over a sequence of completed operations. -/
def missCount (ops : List CacheOp) : Nat := (ops.map opMiss).sum

/-- Completed `set`/`del` operations in a sequence. -/
def setDelCount (ops : List CacheOp) : Nat := (ops.map opSetDel).sum

/-- Completed non-`get` operations in a sequence, as the claim counts them. -/
def specNonGetCount (ops : List CacheOp) : Nat := (ops.map opSpecNonGet).sum

/-! ## Connection lifecycle (redis.ts lines 1-97, 320-321) -/

/-- `MAX_RETRY_ATTEMPTS` (redis.ts line 7). -/
def MAX_RETRY_ATTEMPTS : Nat := 3

/-- `REDIS_CONFIG.retry_delay` in milliseconds (redis.ts line 27). -/
def RETRY_DELAY_MS : Nat := 1000

/-- The module-level connection state of redis.ts: `redisClient` (is the
variable non-null), `isConnected`, `connectionAttempts`, plus the multiset of
`setTimeout` retry callbacks currently scheduled (each carries its delay). -/
structure ConnState where
  redisClient : Bool
  isConnected : Bool
  connectionAttempts : Nat
  pendingRetries : List Nat
deriving Repr, DecidableEq

/-- Connection state at process start (redis.ts lines 4-6). -/
def initialConnState : ConnState :=
  { redisClient := false, isConnected := false, connectionAttempts := 0, pendingRetries := [] }

/-- `initializeRedis` (redis.ts lines 36-87). `connectOk` is the outcome of
`redisClient.connect()`. Returns the new state, whether a non-null client was
returned, and whether a connection attempt (a `connect()` call) was made.
On success the `connect` event handler resets `connectionAttempts` to 0; on
failure the attempt counter is incremented and, while it is still below
`MAX_RETRY_ATTEMPTS`, a retry is scheduled after `RETRY_DELAY_MS`. -/
def initializeRedis (connectOk : Bool) (s : ConnState) : ConnState × Bool × Bool :=
  if s.redisClient && s.isConnected then (s, true, false)
  else if connectOk then
    ({ redisClient := true, isConnected := true, connectionAttempts := 0,
       pendingRetries := s.pendingRetries }, true, true)
  else
    let a := s.connectionAttempts + 1
    ({ redisClient := true, isConnected := false, connectionAttempts := a,
       pendingRetries :=
         if a < MAX_RETRY_ATTEMPTS then s.pendingRetries ++ [RETRY_DELAY_MS]
         else s.pendingRetries }, false, true)

/-- `getRedisClient` (redis.ts lines 92-97): returns the client if it exists
and is connected, otherwise calls `initializeRedis`. -/
def getRedisClient (connectOk : Bool) (s : ConnState) : ConnState × Bool × Bool :=
  if !s.redisClient || !s.isConnected then initializeRedis connectOk s
  else (s, true, false)

/-- Events driving the connection state machine: the module-load
`initializeRedis()` call (redis.ts line 321), a scheduled retry timer firing,
and a cache operation calling `getRedisClient()`. Each carries the outcome the
`connect()` call would have. -/
inductive RedisEvent where
  | initCall (connectOk : Bool)
  | timerFire (connectOk : Bool)
  | opCall (connectOk : Bool)
deriving Repr, DecidableEq

/-- One step of the connection state machine; returns whether a connection
attempt was made. A `timerFire` with no pending retry is a no-op. -/
def redisStep (s : ConnState) : RedisEvent → ConnState × Bool
  | .initCall ok =>
    let (s', _, att) := initializeRedis ok s
    (s', att)
  | .timerFire ok =>
    match s.pendingRetries with
    | [] => (s, false)
    | _ :: rest =>
      let (s', _, att) := initializeRedis ok { s with pendingRetries := rest }
      (s', att)
  | .opCall ok =>
    let (s', _, att) := getRedisClient ok s
    (s', att)

/-- Run a sequence of events; returns the final state and the total number of
connection attempts made. -/
def runRedisEvents (s : ConnState) : List RedisEvent → ConnState × Nat
  | [] => (s, 0)
  | e :: rest =>
    let (s', att) := redisStep s e
    let (s'', n) := runRedisEvents s' rest
    (s'', (if att then 1 else 0) + n)

/-! ## Cache key builders (redis.ts lines 310-318)

`CacheKeys.searchResults` calls `Buffer.from(query).toString('base64')`:
UTF-8 encoding of the query string followed by standard base64. Both are
embedded executably below, together with decoders used to witness that the
encoding is reversible. -/

/-- UTF-8 encoding of a single Unicode scalar value. -/
def utf8Bytes (c : Char) : List Nat :=
  if c.toNat < 128 then [c.toNat]
  else if c.toNat < 2048 then [192 + c.toNat / 64, 128 + c.toNat % 64]
  else if c.toNat < 65536 then
    [224 + c.toNat / 4096, 128 + c.toNat / 64 % 64, 128 + c.toNat % 64]
  else
    [240 + c.toNat / 262144, 128 + c.toNat / 4096 % 64, 128 + c.toNat / 64 % 64,
      128 + c.toNat % 64]

/-- UTF-8 encoding of a string (the byte content of `Buffer.from(query)`). -/
def utf8Encode (s : String) : List Nat := s.data.flatMap utf8Bytes

/-- Decode one UTF-8 encoded scalar value from the front of a byte list
(part of the inverse witness; not part of the source). -/
def utf8DecodeChar : List Nat → Option (Char × List Nat)
  | [] => none
  | b0 :: rest =>
    if b0 < 128 then some (Char.ofNat b0, rest)
    else if b0 < 192 then none
    else if b0 < 224 then
      match rest with
      | b1 :: rest2 => some (Char.ofNat ((b0 - 192) * 64 + (b1 - 128)), rest2)
      | [] => none
    else if b0 < 240 then
      match rest with
      | b1 :: b2 :: rest3 =>
        some (Char.ofNat ((b0 - 224) * 4096 + (b1 - 128) * 64 + (b2 - 128)), rest3)
      | _ => none
    else
      match rest with
      | b1 :: b2 :: b3 :: rest4 =>
        some (Char.ofNat ((b0 - 240) * 262144 + (b1 - 128) * 4096 + (b2 - 128) * 64
          + (b3 - 128)), rest4)
      | _ => none

/-- Fuelled UTF-8 decoding loop; each decoded character consumes at least one
byte, so a fuel of the byte count is always enough. -/
def utf8DecodeAux : Nat → List Nat → Option (List Char)
  | _, [] => some []
  | 0, _ :: _ => none
  | fuel + 1, b0 :: rest =>
    match utf8DecodeChar (b0 :: rest) with
    | some (c, rest2) => (utf8DecodeAux fuel rest2).map (fun cs => c :: cs)
    | none => none

/-- UTF-8 decoder (the inverse witness; not part of the source). -/
def utf8Decode (l : List Nat) : Option (List Char) := utf8DecodeAux l.length l

/-- The 64-character base64 alphabet. -/
def b64Alphabet : List Char :=
  "ABCDEFGHIJKLMNOPQRSTUVWXYZabcdefghijklmnopqrstuvwxyz0123456789+/".data

/-- Character for a 6-bit group. -/
def b64Char (n : Nat) : Char := b64Alphabet.getD n 'A'

/-- Index of a character in the base64 alphabet (inverse of `b64Char`). -/
def b64Val (c : Char) : Nat := b64Alphabet.indexOf c

/-- Standard base64 encoding with padding, 3 input bytes per 4 output
characters (the behaviour of `Buffer.prototype.toString('base64')`). -/
def base64Encode : List Nat → List Char
  | [] => []
  | [a] => [b64Char (a / 4), b64Char (a % 4 * 16), '=', '=']
  | [a, b] => [b64Char (a / 4), b64Char (a % 4 * 16 + b / 16), b64Char (b % 16 * 4), '=']
  | a :: b :: c :: rest =>
    b64Char (a / 4) :: b64Char (a % 4 * 16 + b / 16) :: b64Char (b % 16 * 4 + c / 64)
      :: b64Char (c % 64) :: base64Encode rest

/-- Decode one base64 quartet, honouring padding. -/
def b64DecodeChunk (c0 c1 c2 c3 : Char) : List Nat :=
  if c2 = '=' then [b64Val c0 * 4 + b64Val c1 / 16]
  else if c3 = '=' then
    [b64Val c0 * 4 + b64Val c1 / 16, b64Val c1 % 16 * 16 + b64Val c2 / 4]
  else
    [b64Val c0 * 4 + b64Val c1 / 16, b64Val c1 % 16 * 16 + b64Val c2 / 4,
     b64Val c2 % 4 * 64 + b64Val c3]

/-- Base64 decoder (the inverse witness; not part of the source). -/
def base64Decode : List Char → Option (List Nat)
  | [] => some []
  | c0 :: c1 :: c2 :: c3 :: rest =>
    (base64Decode rest).map (fun r => b64DecodeChunk c0 c1 c2 c3 ++ r)
  | _ => none

/-- `Buffer.from(query).toString('base64')` as a Lean string. -/
def bufferBase64 (query : String) : String := String.mk (base64Encode (utf8Encode query))

namespace CacheKeys

/-- `CacheKeys.articles` (redis.ts line 311): the argument is optional and a
falsy (absent or empty) query yields the shared `articles:all` key. -/
def articles (searchQuery : Option String) : String :=
  match searchQuery with
  | some q => if q = "" then "articles:all" else "articles:" ++ q
  | none => "articles:all"

/-- `CacheKeys.session` (redis.ts line 312). -/
def session (sessionId : String) : String := "session:" ++ sessionId

/-- `CacheKeys.bookmarks` (redis.ts line 313). -/
def bookmarks (sessionId : String) : String := "bookmarks:" ++ sessionId

/-- `CacheKeys.bookmarkData` (redis.ts line 314). -/
def bookmarkData (sessionId : String) : String := "bookmark_data:" ++ sessionId

/-- `CacheKeys.linkedinContent` (redis.ts line 315). -/
def linkedinContent (articleId : String) : String := "linkedin:" ++ articleId

/-- `CacheKeys.searchResults` (redis.ts line 316). -/
def searchResults (query : String) : String := "search:" ++ bufferBase64 query

/-- `CacheKeys.userBookmarkCount` (redis.ts line 317). -/
def userBookmarkCount (sessionId : String) : String := "bookmark_count:" ++ sessionId

end CacheKeys

/-- The resource tag of a key: the characters before the first `:`.
Every key builder emits `tag ++ ":" ++ identifier material`, so distinct tags
separate the key spaces even when identifiers themselves contain `:`. -/
def keyTag (s : String) : List Char := s.data.takeWhile (fun c => c != ':')

/-- Decoder for `CacheKeys.searchResults` keys (inverse witness): strip the
7-character `search:` prefix, then undo base64 and UTF-8. -/
def searchResultsDecode (key : String) : Option String :=
  if key.data.take 7 = ("search:").data then
    (base64Decode (key.data.drop 7)).bind (fun bs => (utf8Decode bs).map String.mk)
  else none

/-! ## SSE connection registry and broadcaster (migrate-bookmarks.ts, SSE part)

Connection handles (`ReadableStreamDefaultController` references) are modelled
as `Nat` identifiers; the `sseConnections` map is an association list keyed by
handle, and the set of live `setInterval` keep-alive timers is a list of timer
ids. The environment captures the JS-side behaviour of a handle: whether the
controller object itself is usable (`typeof controller.enqueue === 'function'`)
and whether an `enqueue` call on it throws. -/

/-- `SSEConnectionData` (migrate-bookmarks.ts lines 167-172). -/
structure SSEConnectionData where
  active : Bool
  keepAliveId : Option Nat
  lastActivity : Nat
  closed : Bool
deriving Repr, DecidableEq

/-- The SSE module state: the `sseConnections` map plus the live keep-alive
interval timers. -/
structure SSEState where
  conns : List (Nat × SSEConnectionData)
  timers : List Nat
deriving Repr, DecidableEq

/-- Behaviour of the JS controller objects during one delivery. -/
structure SSEEnv where
  ctrlOk : Nat → Bool
  writeThrows : Nat → Bool

/-- First entry with the given key, as JS `Map.get`. -/
def lookupConn (l : List (Nat × SSEConnectionData)) (h : Nat) : Option SSEConnectionData :=
  match l with
  | [] => none
  | p :: rest => if p.1 = h then some p.2 else lookupConn rest h

/-- JS `Map.set`: replace in place if the key is present, else append. -/
def setConn (l : List (Nat × SSEConnectionData)) (h : Nat) (d : SSEConnectionData) :
    List (Nat × SSEConnectionData) :=
  if (lookupConn l h).isSome then
    l.map (fun p => if p.1 = h then (h, d) else p)
  else l ++ [(h, d)]

/-- `isControllerWritable` (migrate-bookmarks.ts lines 177-194): the controller
must be a live object with an `enqueue` method, and the tracked state must be
present, active and not closed. -/
def isControllerWritable (env : SSEEnv) (st : SSEState) (h : Nat) : Bool :=
  env.ctrlOk h &&
    match lookupConn st.conns h with
    | some d => d.active && !d.closed
    | none => false

/-- `removeSSEConnection` (migrate-bookmarks.ts lines 267-280): if the handle
is tracked, mark it `{active := false, closed := true}`, cancel its keep-alive
timer if any; in all cases delete the map entry. The marked record is dead
after the `delete`, so only the deletion and the timer cancellation are
observable. -/
def removeSSEConnection (st : SSEState) (h : Nat) : SSEState :=
  match lookupConn st.conns h with
  | some d =>
    { conns := st.conns.filter (fun p => p.1 != h)
      timers :=
        match d.keepAliveId with
        | some t => st.timers.filter (fun u => u != t)
        | none => st.timers }
  | none => { st with conns := st.conns.filter (fun p => p.1 != h) }

/-- Refresh `connectionData.lastActivity` for a handle. -/
def touchConn (st : SSEState) (h : Nat) (now : Nat) : SSEState :=
  { st with
    conns := st.conns.map (fun p => if p.1 = h then (p.1, { p.2 with lastActivity := now }) else p) }

/-- The SSE wire framing of one event: `data: <JSON>\n\n`
(migrate-bookmarks.ts line 204). `serialized` is `JSON.stringify(update)`. -/
def sseMessage (serialized : String) : String := "data: " ++ serialized ++ "\n\n"

/-- `sendSSEMessage` (migrate-bookmarks.ts lines 197-216): re-checks
writability (removing the connection if it fails), then enqueues the framed
message and refreshes `lastActivity`; a throwing `enqueue` silently removes
the connection. Returns the new state and the message delivered, if any. -/
def sendSSEMessage (env : SSEEnv) (now : Nat) (st : SSEState) (h : Nat)
    (serialized : String) : SSEState × Option String :=
  if isControllerWritable env st h then
    if env.writeThrows h then (removeSSEConnection st h, none)
    else (touchConn st h now, some (sseMessage serialized))
  else (removeSSEConnection st h, none)

/-- The `sseConnections.forEach` body of `broadcastUpdate` (migrate-bookmarks.ts
lines 222-228), iterating over the entries present when the broadcast started:
unwritable handles are queued for removal, writable ones get the message.
Returns final state, removal queue, and the deliveries made. -/
def broadcastLoop (env : SSEEnv) (now : Nat) (serialized : String) :
    List (Nat × SSEConnectionData) → SSEState → List Nat → List (Nat × String) →
    SSEState × List Nat × List (Nat × String)
  | [], st, toRemove, writes => (st, toRemove, writes)
  | (h, _) :: rest, st, toRemove, writes =>
    if isControllerWritable env st h then
      match sendSSEMessage env now st h serialized with
      | (st', some msg) => broadcastLoop env now serialized rest st' toRemove (writes ++ [(h, msg)])
      | (st', none) => broadcastLoop env now serialized rest st' toRemove writes
    else broadcastLoop env now serialized rest st (toRemove ++ [h]) writes

/-- `broadcastUpdate` (migrate-bookmarks.ts lines 219-234): run the loop over
the registered connections, then remove every queued handle. Total by
construction: every throwing `enqueue` is caught inside `sendSSEMessage`. -/
def broadcastUpdate (env : SSEEnv) (now : Nat) (serialized : String) (st : SSEState) :
    SSEState × List (Nat × String) :=
  let (st', toRemove, writes) := broadcastLoop env now serialized st.conns st [] []
  (toRemove.foldl removeSSEConnection st', writes)

/-- `addSSEConnection` (migrate-bookmarks.ts lines 237-264): register the
handle `{active := true, lastActivity := now, closed := false}`, start a
keep-alive interval timer and store its id in the connection data. -/
def addSSEConnection (st : SSEState) (h : Nat) (timerId : Nat) (now : Nat) : SSEState :=
  { conns :=
      setConn st.conns h
        { active := true, keepAliveId := some timerId, lastActivity := now, closed := false }
    timers := st.timers ++ [timerId] }

/-- The initial `data: {"type":"connected"}\n\n` line of `createSSEStream`
(migrate-bookmarks.ts line 293). -/
def sseConnectedMessage : String := "data: \x7b\"type\":\"connected\"\x7d\n\n"

/-- The `start(controller)` callback of the stream returned by
`createSSEStream` (migrate-bookmarks.ts lines 287-297): registers the
connection, then tries to enqueue the initial connected line, removing the
connection if the enqueue throws. Returns the new state and the bytes
written to the stream. -/
def createSSEStreamStart (st : SSEState) (h : Nat) (timerId : Nat) (now : Nat)
    (enqueueOk : Bool) : SSEState × List String :=
  let st1 := addSSEConnection st h timerId now
  if enqueueOk then (st1, [sseConnectedMessage])
  else (removeSSEConnection st1 h, [])

/-- The `cancel()` callback of the stream returned by `createSSEStream`
(migrate-bookmarks.ts lines 299-303). -/
def createSSEStreamCancel (st : SSEState) (h : Nat) : SSEState :=
  removeSSEConnection st h

/-- The stale-connection threshold: 10 minutes (migrate-bookmarks.ts line 310). -/
def STALE_THRESHOLD_MS : Nat := 10 * 60 * 1000

/-- The sweep interval: 5 minutes (migrate-bookmarks.ts line 326). -/
def SWEEP_INTERVAL_MS : Nat := 5 * 60 * 1000

/-- The keep-alive interval: 30 seconds (migrate-bookmarks.ts line 259). -/
def KEEPALIVE_INTERVAL_MS : Nat := 30000

/-- One keep-alive timer tick for a handle (the `setInterval` callback of
`addSSEConnection`, migrate-bookmarks.ts lines 247-259): unwritable handles
are removed; otherwise the comment line is enqueued and `lastActivity`
refreshed, a throwing enqueue removing the connection. -/
def keepAliveTick (st : SSEState) (h : Nat) (now : Nat) (ctrlOk throws : Bool) : SSEState :=
  if isControllerWritable { ctrlOk := fun _ => ctrlOk, writeThrows := fun _ => throws } st h then
    if throws then removeSSEConnection st h else touchConn st h now
  else removeSSEConnection st h

/-- The periodic stale sweep (migrate-bookmarks.ts lines 308-326): collect the
handles whose `lastActivity` is older than the threshold or whose state is
closed, then remove each of them. -/
def staleSweep (st : SSEState) (now : Nat) : SSEState :=
  let stale := st.conns.filter
    (fun p => decide (STALE_THRESHOLD_MS < now - p.2.lastActivity) || p.2.closed)
  (stale.map Prod.fst).foldl removeSSEConnection st

/-- Timed events touching one SSE connection registry: keep-alive ticks (with
the writability/throw behaviour of the handle's controller at that moment) and
stale sweeps. -/
inductive SSEEvent where
  | keepAlive (h : Nat) (now : Nat) (ctrlOk : Bool) (throws : Bool)
  | sweep (now : Nat)
deriving Repr, DecidableEq

/-- Run a sequence of timer events. -/
def runSSEEvents (st : SSEState) : List SSEEvent → SSEState
  | [] => st
  | .keepAlive h now ctrlOk throws :: rest =>
    runSSEEvents (keepAliveTick st h now ctrlOk throws) rest
  | .sweep now :: rest => runSSEEvents (staleSweep st now) rest

/-- The time of the last successful keep-alive write for handle `h` along an
event list, starting from `t0` (the registration/last refresh time). -/
def lastRefresh (t0 : Nat) (h : Nat) : List SSEEvent → Nat
  | [] => t0
  | .keepAlive g now ctrlOk throws :: rest =>
    lastRefresh (if g = h && ctrlOk && !throws then now else t0) h rest
  | .sweep _ :: rest => lastRefresh t0 h rest

/-- All keep-alive ticks for handle `h` in the event list succeed: the
controller stays usable and no enqueue throws. -/
def kaAllOk (h : Nat) (evs : List SSEEvent) : Bool :=
  evs.all fun e =>
    match e with
    | .keepAlive g _ ctrlOk throws => if g = h then ctrlOk && !throws else true
    | .sweep _ => true

/-- Every sweep in the event list happens within the staleness window of the
last successful keep-alive write for `h` (initially `t0`): the keep-alive
writes keep succeeding within the 10-minute window, as the spec phrases it. -/
def sweepsInWindow (t0 : Nat) (h : Nat) : List SSEEvent → Bool
  | [] => true
  | .sweep now :: rest => decide (now ≤ STALE_THRESHOLD_MS + t0) && sweepsInWindow t0 h rest
  | .keepAlive g now ctrlOk throws :: rest =>
    sweepsInWindow (if g = h && ctrlOk && !throws then now else t0) h rest

/-- Whether a registered entry is writable in the given environment, as
`isControllerWritable` computes it from the entry's own data. -/
def connWritable (env : SSEEnv) (p : Nat × SSEConnectionData) : Bool :=
  env.ctrlOk p.1 && (p.2.active && !p.2.closed)

/-! ## Theorems -/

/-! ### Association-list helper lemmas -/

theorem lookupConn_filter_self (l : List (Nat × SSEConnectionData)) (h : Nat) :
    lookupConn (l.filter (fun p => p.1 != h)) h = none := by
  induction l with
  | nil => rfl
  | cons p rest ih =>
    by_cases hp : p.1 = h
    · simpa [List.filter_cons, hp] using ih
    · simpa [List.filter_cons, bne_iff_ne, hp, lookupConn] using ih

theorem lookupConn_filter_ne (l : List (Nat × SSEConnectionData)) (g h : Nat)
    (hgh : g ≠ h) : lookupConn (l.filter (fun p => p.1 != g)) h = lookupConn l h := by
  induction l with
  | nil => rfl
  | cons p rest ih =>
    by_cases hp : p.1 = g
    · have hph : p.1 ≠ h := by omega
      simp [List.filter_cons, hp, lookupConn, hph, ih, hgh, bne_iff_ne]
    · by_cases ph : p.1 = h <;>
        simp [List.filter_cons, bne_iff_ne, hp, lookupConn, ph, ih,
          show h ≠ g from fun hc => hgh hc.symm]

theorem lookupConn_none_filter (l : List (Nat × SSEConnectionData)) (h : Nat)
    (hl : lookupConn l h = none) : l.filter (fun p => p.1 != h) = l := by
  induction l with
  | nil => rfl
  | cons p rest ih =>
    by_cases hp : p.1 = h
    · simp [lookupConn, hp] at hl
    · simp [lookupConn, hp] at hl
      simp [List.filter_cons, bne_iff_ne, hp, ih hl]

theorem lookupConn_eq_of_mem_nodup : ∀ (l : List (Nat × SSEConnectionData)),
    (l.map Prod.fst).Nodup → ∀ (h : Nat) (d : SSEConnectionData),
    (h, d) ∈ l → lookupConn l h = some d := by
  intro l
  induction l with
  | nil => intro _ h d hmem; simp at hmem
  | cons p rest ih =>
    intro hnd h d hmem
    rw [List.map_cons, List.nodup_cons] at hnd
    rcases List.mem_cons.mp hmem with rfl | hmem2
    · simp [lookupConn]
    · have hne : p.1 ≠ h := by
        intro hk
        exact hnd.1 (by rw [hk]; exact List.mem_map.mpr ⟨(h, d), hmem2, rfl⟩)
      simp [lookupConn, hne, ih hnd.2 h d hmem2]

theorem mem_key_unique (l : List (Nat × SSEConnectionData))
    (hnd : (l.map Prod.fst).Nodup) (h : Nat) (a b : SSEConnectionData)
    (ha : (h, a) ∈ l) (hb : (h, b) ∈ l) : a = b := by
  have h1 := lookupConn_eq_of_mem_nodup l hnd h a ha
  have h2 := lookupConn_eq_of_mem_nodup l hnd h b hb
  rw [h1] at h2
  exact Option.some.inj h2

theorem conns_removeSSE (st : SSEState) (g : Nat) :
    (removeSSEConnection st g).conns = st.conns.filter (fun p => p.1 != g) := by
  unfold removeSSEConnection
  cases lookupConn st.conns g <;> rfl

theorem lookup_removeSSE_self (st : SSEState) (h : Nat) :
    lookupConn (removeSSEConnection st h).conns h = none := by
  rw [conns_removeSSE]
  exact lookupConn_filter_self _ _

theorem lookup_removeSSE_ne (st : SSEState) (g h : Nat) (hgh : g ≠ h) :
    lookupConn (removeSSEConnection st g).conns h = lookupConn st.conns h := by
  rw [conns_removeSSE]
  exact lookupConn_filter_ne _ _ _ hgh

theorem lookup_touch_self (st : SSEState) (h : Nat) (now : Nat) :
    lookupConn (touchConn st h now).conns h =
      (lookupConn st.conns h).map (fun d => { d with lastActivity := now }) := by
  show lookupConn (st.conns.map _) h = _
  induction st.conns with
  | nil => rfl
  | cons p rest ih =>
    by_cases hp : p.1 = h <;> simp [lookupConn, hp, ih]

theorem lookup_touch_ne (st : SSEState) (g h : Nat) (now : Nat) (hgh : g ≠ h) :
    lookupConn (touchConn st g now).conns h = lookupConn st.conns h := by
  show lookupConn (st.conns.map _) h = _
  induction st.conns with
  | nil => rfl
  | cons p rest ih =>
    by_cases hp : p.1 = g
    · simp [lookupConn, hp, hgh, ih]
    · by_cases ph : p.1 = h <;>
        simp [lookupConn, hp, ph, ih, show h ≠ g from fun hc => hgh hc.symm]

theorem lookup_foldl_removeSSE_none (rm : List Nat) : ∀ (st : SSEState) (h : Nat),
    lookupConn st.conns h = none →
    lookupConn ((rm.foldl removeSSEConnection st)).conns h = none := by
  induction rm with
  | nil => intro st h hl; exact hl
  | cons g rest ih =>
    intro st h hl
    by_cases hgh : g = h
    · exact ih _ _ (by simpa [hgh] using lookup_removeSSE_self st h)
    · exact ih _ _ (by rw [lookup_removeSSE_ne st g h hgh]; exact hl)

theorem lookup_foldl_removeSSE_of_notmem (rm : List Nat) : ∀ (st : SSEState) (h : Nat),
    h ∉ rm →
    lookupConn ((rm.foldl removeSSEConnection st)).conns h = lookupConn st.conns h := by
  induction rm with
  | nil => intro st h _; rfl
  | cons g rest ih =>
    intro st h hn
    have hgh : g ≠ h := fun hc => hn (by simp [hc])
    have := ih (removeSSEConnection st g) h (fun hc => hn (by simp [hc]))
    rw [List.foldl_cons, this, lookup_removeSSE_ne st g h hgh]

theorem lookup_foldl_removeSSE_of_mem (rm : List Nat) : ∀ (st : SSEState) (h : Nat),
    h ∈ rm →
    lookupConn ((rm.foldl removeSSEConnection st)).conns h = none := by
  induction rm with
  | nil => intro st h hc; simp at hc
  | cons g rest ih =>
    intro st h hm
    rcases List.mem_cons.mp hm with rfl | hm2
    · exact lookup_foldl_removeSSE_none rest _ _ (lookup_removeSSE_self st h)
    · exact ih _ _ hm2

/-- Effect of a single operation on the three counters. -/
theorem applyCacheOp_counters (m : PerformanceMetrics) (op : CacheOp) :
    (applyCacheOp m op).cacheHits = m.cacheHits + opHit op ∧
    (applyCacheOp m op).cacheMisses = m.cacheMisses + opMiss op ∧
    (applyCacheOp m op).totalOperations =
      m.totalOperations + opHit op + opMiss op + opSetDel op := by
  cases op with
  | getOp client storeGet parseOk rt =>
    cases client <;> rcases storeGet with e | v <;> cases parseOk <;>
      simp [applyCacheOp, RedisCache.get, RedisCache.trackOperation, opHit, opMiss, opSetDel] <;>
      rcases v with _ | s <;>
      first
        | (by_cases hs : s = "" <;>
            simp [strTruthy, hs, RedisCache.trackOperation, Except.map])
        | simp [strTruthy]
  | setOp client stringify store rt =>
    cases client <;> rcases stringify with e | u <;> rcases store with e' | u' <;>
      simp [applyCacheOp, RedisCache.set, RedisCache.trackOperation, Except.map,
        opHit, opMiss, opSetDel]
  | delOp client store rt =>
    cases client <;> rcases store with e | n <;>
      simp [applyCacheOp, RedisCache.del, RedisCache.trackOperation, Except.map,
        opHit, opMiss, opSetDel]
  | existsOp client store =>
    cases client <;> rcases store with e | n <;>
      simp [applyCacheOp, RedisCache.existsKey, opHit, opMiss, opSetDel]
  | sAddOp client store =>
    cases client <;> rcases store with e | n <;>
      simp [applyCacheOp, RedisCache.sAdd, opHit, opMiss, opSetDel]
  | sRemOp client store =>
    cases client <;> rcases store with e | n <;>
      simp [applyCacheOp, RedisCache.sRem, opHit, opMiss, opSetDel]
  | sIsMemberOp client store =>
    cases client <;> rcases store with e | n <;>
      simp [applyCacheOp, RedisCache.sIsMember, opHit, opMiss, opSetDel]
  | sMembersOp client store =>
    cases client <;> rcases store with e | n <;>
      simp [applyCacheOp, RedisCache.sMembers, opHit, opMiss, opSetDel]
  | flushAllOp client store =>
    cases client <;> rcases store with e | n <;>
      simp [applyCacheOp, RedisCache.flushAll, opHit, opMiss, opSetDel]

/-- The counters after any sequence of completed operations, from any start. -/
theorem runCacheOps_counters (ops : List CacheOp) : ∀ m : PerformanceMetrics,
    (runCacheOps m ops).cacheHits = m.cacheHits + hitCount ops ∧
    (runCacheOps m ops).cacheMisses = m.cacheMisses + missCount ops ∧
    (runCacheOps m ops).totalOperations =
      m.totalOperations + hitCount ops + missCount ops + setDelCount ops := by
  induction ops with
  | nil => intro m; simp [runCacheOps, hitCount, missCount, setDelCount]
  | cons op rest ih =>
    intro m
    obtain ⟨h1, h2, h3⟩ := applyCacheOp_counters m op
    obtain ⟨g1, g2, g3⟩ := ih (applyCacheOp m op)
    refine ⟨?_, ?_, ?_⟩ <;>
      simp [runCacheOps, hitCount, missCount, setDelCount] at * <;> omega

/-- `runCacheOps` composes over list append. -/
theorem runCacheOps_append (a b : List CacheOp) : ∀ m : PerformanceMetrics,
    runCacheOps m (a ++ b) = runCacheOps (runCacheOps m a) b := by
  induction a with
  | nil => intro m; simp [runCacheOps]
  | cons op rest ih => intro m; simp [runCacheOps, ih]

/-- Claim C1: for every public cache operation (`get`, `set`, `del`, `exists`,
`sAdd`, `sRem`, `sIsMember`, `sMembers`, `flushAll`) and every input, whenever
the underlying store is unavailable (`getRedisClient()` returned null) or the
underlying store call throws, the operation returns its documented empty value
(`null` for `get`, `false` for the boolean operations, `[]` for `sMembers`)
and leaves the metrics untouched. No exception propagates to the caller: every
operation in the embedding is a total function in which each throwing store
call is matched by the source's catch branch. -/
theorem cache_degradation_contract {J : Type}
    (m : PerformanceMetrics) (rt : ℚ) (parse : String → Except Unit J)
    (storeGet : Except Unit (Option String)) (stringify : Except Unit Unit)
    (storeSetEx : Except Unit Unit) (storeNat : Except Unit Nat)
    (storeList : Except Unit (List String)) (storeUnit : Except Unit Unit) :
    RedisCache.get none storeGet parse rt m = (none, m) ∧
    RedisCache.get (some ()) (.error ()) parse rt m = (none, m) ∧
    RedisCache.set none stringify storeSetEx rt m = (false, m) ∧
    RedisCache.set (some ()) stringify (.error ()) rt m = (false, m) ∧
    RedisCache.set (some ()) (.error ()) storeSetEx rt m = (false, m) ∧
    RedisCache.del none storeNat rt m = (false, m) ∧
    RedisCache.del (some ()) (.error ()) rt m = (false, m) ∧
    RedisCache.existsKey none storeNat m = (false, m) ∧
    RedisCache.existsKey (some ()) (.error ()) m = (false, m) ∧
    RedisCache.sAdd none storeNat m = (false, m) ∧
    RedisCache.sAdd (some ()) (.error ()) m = (false, m) ∧
    RedisCache.sRem none storeNat m = (false, m) ∧
    RedisCache.sRem (some ()) (.error ()) m = (false, m) ∧
    RedisCache.sIsMember none storeNat m = (false, m) ∧
    RedisCache.sIsMember (some ()) (.error ()) m = (false, m) ∧
    RedisCache.sMembers none storeList m = ([], m) ∧
    RedisCache.sMembers (some ()) (.error ()) m = ([], m) ∧
    RedisCache.flushAll none storeUnit m = (false, m) ∧
    RedisCache.flushAll (some ()) (.error ()) m = (false, m) := by
  refine ⟨rfl, rfl, rfl, ?_, ?_, rfl, rfl, rfl, rfl, rfl, rfl, rfl, rfl, rfl, rfl,
    rfl, rfl, rfl, rfl⟩
  · rcases stringify with e | u <;> rfl
  · rcases storeSetEx with e | u <;> rfl

/-- Claim C5 (counterexample): a single completed `exists` operation leaves
`totalOperations` at 0, while the claim's accounting — which counts every
completed non-`get` operation, `exists` included — demands 1. The non-`get`
operations other than `set` and `del` bypass `trackOperation` entirely. -/
theorem totalOperations_misses_existsOp :
    ¬ ((runCacheOps initialMetrics [CacheOp.existsOp true (.ok 1)]).totalOperations =
        (runCacheOps initialMetrics [CacheOp.existsOp true (.ok 1)]).cacheHits +
          (runCacheOps initialMetrics [CacheOp.existsOp true (.ok 1)]).cacheMisses +
          specNonGetCount [CacheOp.existsOp true (.ok 1)]) := by
  decide

/-- Claim C5 (amended): after any sequence of completed cache operations,
`totalOperations` is non-decreasing and equals
`cacheHits + cacheMisses +` the number of completed `set` and `del`
operations; `exists`, `sAdd`, `sRem`, `sIsMember`, `sMembers` and `flushAll`
never contribute to any metric. -/
theorem totalOperations_invariant (ops suffix : List CacheOp) :
    (runCacheOps initialMetrics ops).totalOperations =
      (runCacheOps initialMetrics ops).cacheHits +
        (runCacheOps initialMetrics ops).cacheMisses + setDelCount ops ∧
    (runCacheOps initialMetrics ops).totalOperations ≤
      (runCacheOps initialMetrics (ops ++ suffix)).totalOperations := by
  obtain ⟨h1, h2, h3⟩ := runCacheOps_counters ops initialMetrics
  obtain ⟨g1, g2, g3⟩ := runCacheOps_counters suffix (runCacheOps initialMetrics ops)
  rw [runCacheOps_append]
  simp [initialMetrics] at *
  omega

/-- Claim C10 (counterexample): an empty string stored under the key is a
present value that is not valid JSON (`JSON.parse('')` throws), yet `get`
treats it as an ordinary miss — `value ? 'hit' : 'miss'` is falsy on `''` — so
the metrics do change, contradicting the claim that a present-but-invalid
value leaves every metrics field untouched. -/
theorem get_empty_string_changes_metrics :
    (RedisCache.get (J := Unit) (some ()) (.ok (some "")) (fun _ => .error ()) 0
        initialMetrics).1 = none ∧
    (RedisCache.get (J := Unit) (some ()) (.ok (some "")) (fun _ => .error ()) 0
        initialMetrics).2 ≠ initialMetrics := by
  refine ⟨rfl, ?_⟩
  decide

/-- Claim C10 (amended): if `get` finds a non-empty value in the store and
`JSON.parse` throws on it, the call returns `null` and leaves every metrics
field (`cacheHits`, `cacheMisses`, `totalOperations`, `averageResponseTime`)
unchanged — the corrupt-value case is dropped from the metrics, unlike an
ordinary miss. (An empty-string value is instead counted as a miss.) -/
theorem get_corrupt_value_silent {J : Type} (m : PerformanceMetrics) (rt : ℚ)
    (v : String) (parse : String → Except Unit J)
    (hv : v ≠ "") (hp : parse v = .error ()) :
    RedisCache.get (some ()) (.ok (some v)) parse rt m = (none, m) := by
  simp [RedisCache.get, strTruthy, hv, hp, RedisCache.trackOperation, Except.map]

/-- Witness for the amended C10 theorem at a concrete corrupt value. -/
theorem get_corrupt_value_silent_witness :
    RedisCache.get (J := Unit) (some ()) (.ok (some "not json")) (fun _ => .error ()) 0
      initialMetrics = (none, initialMetrics) :=
  get_corrupt_value_silent initialMetrics 0 "not json" (fun _ => .error ())
    (by decide) rfl

/-- Claim C4 (code bug): `getMetrics()` guards the hit-rate division with
`totalOperations > 0`, but `totalOperations` also counts completed `set`/`del`
operations, so after a single completed `set` the guard passes while
`cacheHits + cacheMisses = 0` and the computed `hitRate` is `0/0 = NaN`
(modelled as `none`) — not 0 and not within [0,100]. -/
theorem hitRate_NaN_after_set_only :
    (runCacheOps initialMetrics [CacheOp.setOp true (.ok ()) (.ok ()) 5]).totalOperations
        = 1 ∧
    RedisCache.getMetricsHitRate
        (runCacheOps initialMetrics [CacheOp.setOp true (.ok ()) (.ok ()) 5]) = none := by
  refine ⟨by decide, ?_⟩
  norm_num [RedisCache.getMetricsHitRate, runCacheOps, applyCacheOp, RedisCache.set,
    RedisCache.trackOperation, RedisCache.jsDiv, initialMetrics, Except.map,
    show OpType.set ≠ OpType.hit from by decide, show OpType.set ≠ OpType.miss from by decide]

/-- Claim C3 (counterexample): after the 3rd failed connection attempt the
timer chain stops (the run of module-load init plus two timer retries makes
exactly 3 attempts and leaves no retry scheduled), but a subsequent cache
operation is *not* served without a new attempt: `getRedisClient` sees
`isConnected = false` and calls `initializeRedis` again, making a 4th
`connect()` attempt. -/
theorem connect_attempted_after_exhaustion :
    (runRedisEvents initialConnState
        [RedisEvent.initCall false, RedisEvent.timerFire false, RedisEvent.timerFire false]).2
      = 3 ∧
    (runRedisEvents initialConnState
        [RedisEvent.initCall false, RedisEvent.timerFire false, RedisEvent.timerFire false,
          RedisEvent.opCall false]).2 = 4 := by
  decide

/-- Claim C3 (amended): a failed `initializeRedis` schedules a retry after the
fixed `RETRY_DELAY_MS` (1000 ms) only while fewer than `MAX_RETRY_ATTEMPTS`
(3) attempts have failed, so the timer-driven chain makes exactly 3 attempts
and schedules nothing afterwards, and timer events alone never reconnect; but
unavailability is not permanent at the accessor level: a subsequent cache
operation that finds the client disconnected triggers a fresh connection
attempt through `getRedisClient` (returning no client if it fails again). -/
theorem redis_retry_amended (s : ConnState) (evs : List RedisEvent)
    (hs : s = { redisClient := true, isConnected := false, connectionAttempts := 3,
                pendingRetries := [] })
    (hevs : ∀ e ∈ evs, e = RedisEvent.timerFire true ∨ e = RedisEvent.timerFire false) :
    runRedisEvents initialConnState
        [RedisEvent.initCall false, RedisEvent.timerFire false, RedisEvent.timerFire false]
      = (s, 3) ∧
    (runRedisEvents s evs).2 = 0 ∧
    redisStep s (RedisEvent.opCall false) =
      ({ redisClient := true, isConnected := false, connectionAttempts := 4,
         pendingRetries := [] }, true) ∧
    (∀ t : ConnState, t.isConnected = false →
      (initializeRedis false t).1.pendingRetries =
        (if t.connectionAttempts + 1 < MAX_RETRY_ATTEMPTS then
          t.pendingRetries ++ [RETRY_DELAY_MS] else t.pendingRetries) ∧
      (initializeRedis false t).2.2 = true) := by
  have key : ∀ l : List RedisEvent,
      (∀ e ∈ l, e = RedisEvent.timerFire true ∨ e = RedisEvent.timerFire false) →
      (runRedisEvents ⟨true, false, 3, []⟩ l).2 = 0 := by
    intro l
    induction l with
    | nil => intro _; rfl
    | cons e rest ih =>
      intro hl
      rcases hl e (by simp) with rfl | rfl <;>
        simpa [runRedisEvents, redisStep] using ih (fun e he => hl e (by simp [he]))
  subst hs
  refine ⟨by decide, key evs hevs, by decide, ?_⟩
  intro t ht
  constructor <;> simp [initializeRedis, ht]

/-- Witness for the amended C3 theorem: one idle timer event makes no attempt,
and a first failure schedules a 1000 ms retry. -/
theorem redis_retry_amended_witness :
    (runRedisEvents (⟨true, false, 3, []⟩ : ConnState) [RedisEvent.timerFire true]).2 = 0 ∧
    (initializeRedis false initialConnState).1.pendingRetries = [RETRY_DELAY_MS] := by
  obtain ⟨h1, h2, h3, h4⟩ := redis_retry_amended _ [RedisEvent.timerFire true] rfl (by decide)
  refine ⟨h2, ?_⟩
  have := (h4 initialConnState rfl).1
  simpa [initialConnState, MAX_RETRY_ATTEMPTS] using this

theorem lookupConn_append_right (l : List (Nat × SSEConnectionData)) (h : Nat)
    (d : SSEConnectionData) (hl : lookupConn l h = none) :
    lookupConn (l ++ [(h, d)]) h = some d := by
  induction l with
  | nil => simp [lookupConn]
  | cons p rest ih =>
    by_cases hp : p.1 = h
    · simp [lookupConn, hp] at hl
    · simp [lookupConn, hp] at hl ⊢
      exact ih hl

theorem lookupConn_map_set (l : List (Nat × SSEConnectionData)) (h : Nat)
    (d : SSEConnectionData) :
    lookupConn (l.map (fun p => if p.1 = h then (h, d) else p)) h =
      (lookupConn l h).map (fun _ => d) := by
  induction l with
  | nil => rfl
  | cons p rest ih =>
    by_cases hp : p.1 = h <;> simp [lookupConn, hp, ih]

theorem lookup_setConn_self (l : List (Nat × SSEConnectionData)) (h : Nat)
    (d : SSEConnectionData) : lookupConn (setConn l h d) h = some d := by
  unfold setConn
  rcases hl : lookupConn l h with _ | d0
  · simpa [hl] using lookupConn_append_right l h d hl
  · simpa [hl] using lookupConn_map_set l h d |>.trans (by rw [hl]; rfl)

/-- Claim C6: `removeSSEConnection` is idempotent — it removes the handle's
entry from the registry and cancels its keep-alive timer if one is present;
running it a second time on the same handle, or on a handle that was never
registered, is a no-op (and, being a total function, it never throws). The
`{active := false, closed := true}` marking happens on the record that is
deleted in the same call, so after the call the registry simply has no entry
for the handle. -/
theorem removeSSEConnection_idempotent (st : SSEState) (h : Nat) :
    lookupConn (removeSSEConnection st h).conns h = none ∧
    removeSSEConnection (removeSSEConnection st h) h = removeSSEConnection st h ∧
    (lookupConn st.conns h = none → removeSSEConnection st h = st) ∧
    (∀ (d : SSEConnectionData) (t : Nat), lookupConn st.conns h = some d →
      d.keepAliveId = some t → t ∉ (removeSSEConnection st h).timers) := by
  have habsent : ∀ u : SSEState, lookupConn u.conns h = none →
      removeSSEConnection u h = u := by
    intro u hu
    simp [removeSSEConnection, hu, lookupConn_none_filter _ _ hu]
  refine ⟨lookup_removeSSE_self st h, ?_, habsent st, ?_⟩
  · exact habsent _ (lookup_removeSSE_self st h)
  · intro d t hd ht
    simp [removeSSEConnection, hd, ht, List.mem_filter]

/-- Witness for C6: removing a live handle cancels its timer; removing an
unknown handle leaves the state untouched. -/
theorem removeSSEConnection_idempotent_witness :
    5 ∉ (removeSSEConnection ⟨[(1, ⟨true, some 5, 0, false⟩)], [5]⟩ 1).timers ∧
    removeSSEConnection ⟨[(1, ⟨true, some 5, 0, false⟩)], [5]⟩ 2 =
      ⟨[(1, ⟨true, some 5, 0, false⟩)], [5]⟩ :=
  ⟨(removeSSEConnection_idempotent ⟨[(1, ⟨true, some 5, 0, false⟩)], [5]⟩ 1).2.2.2
      ⟨true, some 5, 0, false⟩ 5 rfl rfl,
    (removeSSEConnection_idempotent ⟨[(1, ⟨true, some 5, 0, false⟩)], [5]⟩ 2).2.2.1 rfl⟩

/-- Claim C8: the stream produced by `createSSEStream` registers the
connection in its `start` callback — the registry afterwards holds
`{active := true, keepAliveId := some timerId, lastActivity := now,
closed := false}` for the handle — and, immediately upon registration, the
single line `data: {"type":"connected"}\n\n` is the only data written to the
stream; the `cancel` callback unregisters the connection. -/
theorem createSSEStream_lifecycle (st : SSEState) (h timerId now : Nat) :
    lookupConn (createSSEStreamStart st h timerId now true).1.conns h =
      some ⟨true, some timerId, now, false⟩ ∧
    (createSSEStreamStart st h timerId now true).2 = [sseConnectedMessage] ∧
    sseConnectedMessage.data =
      ("data: " ++ String.mk ['\x7b'] ++ "\"type\":\"connected\"" ++ String.mk ['\x7d']
        ++ "\n\n").data ∧
    (∀ st' : SSEState, lookupConn (createSSEStreamCancel st' h).conns h = none) := by
  refine ⟨?_, rfl, rfl, fun st' => lookup_removeSSE_self st' h⟩
  exact lookup_setConn_self st.conns h _

/-! ### Broadcast loop characterization -/

theorem broadcastLoop_cons_unwritable (env : SSEEnv) (now : Nat) (ser : String)
    (h0 : Nat) (d0 : SSEConnectionData) (rest : List (Nat × SSEConnectionData))
    (st : SSEState) (rm : List Nat) (ws : List (Nat × String))
    (h : isControllerWritable env st h0 = false) :
    broadcastLoop env now ser ((h0, d0) :: rest) st rm ws =
      broadcastLoop env now ser rest st (rm ++ [h0]) ws := by
  simp [broadcastLoop, h]

theorem broadcastLoop_cons_throws (env : SSEEnv) (now : Nat) (ser : String)
    (h0 : Nat) (d0 : SSEConnectionData) (rest : List (Nat × SSEConnectionData))
    (st : SSEState) (rm : List Nat) (ws : List (Nat × String))
    (h : isControllerWritable env st h0 = true) (ht : env.writeThrows h0 = true) :
    broadcastLoop env now ser ((h0, d0) :: rest) st rm ws =
      broadcastLoop env now ser rest (removeSSEConnection st h0) rm ws := by
  simp [broadcastLoop, h, sendSSEMessage, ht]

theorem broadcastLoop_cons_ok (env : SSEEnv) (now : Nat) (ser : String)
    (h0 : Nat) (d0 : SSEConnectionData) (rest : List (Nat × SSEConnectionData))
    (st : SSEState) (rm : List Nat) (ws : List (Nat × String))
    (h : isControllerWritable env st h0 = true) (ht : env.writeThrows h0 = false) :
    broadcastLoop env now ser ((h0, d0) :: rest) st rm ws =
      broadcastLoop env now ser rest (touchConn st h0 now) rm
        (ws ++ [(h0, sseMessage ser)]) := by
  simp [broadcastLoop, h, sendSSEMessage, ht]

theorem broadcastLoop_char (env : SSEEnv) (now : Nat) (ser : String) :
    ∀ (l : List (Nat × SSEConnectionData)) (st : SSEState) (rm : List Nat)
      (ws : List (Nat × String)),
    (l.map Prod.fst).Nodup →
    (∀ p ∈ l, lookupConn st.conns p.1 = some p.2) →
    (broadcastLoop env now ser l st rm ws).2.1 =
        rm ++ (l.filter (fun p => !connWritable env p)).map Prod.fst ∧
    (broadcastLoop env now ser l st rm ws).2.2 =
        ws ++ (l.filter (fun p => connWritable env p && !env.writeThrows p.1)).map
          (fun p => (p.1, sseMessage ser)) ∧
    (∀ g : Nat, g ∉ l.map Prod.fst →
        lookupConn (broadcastLoop env now ser l st rm ws).1.conns g =
          lookupConn st.conns g) ∧
    (∀ p ∈ l,
        lookupConn (broadcastLoop env now ser l st rm ws).1.conns p.1 =
          if connWritable env p && !env.writeThrows p.1 then
            some { p.2 with lastActivity := now }
          else if connWritable env p then none
          else some p.2) := by
  intro l
  induction l with
  | nil =>
    intro st rm ws _ _
    exact ⟨by simp [broadcastLoop], by simp [broadcastLoop], fun g _ => rfl, by simp⟩
  | cons q rest ih =>
    intro st rm ws hnd hlook
    obtain ⟨h0, d0⟩ := q
    rw [List.map_cons, List.nodup_cons] at hnd
    have hl0 : lookupConn st.conns h0 = some d0 :=
      hlook (h0, d0) (List.mem_cons_self _ _)
    have hcw : isControllerWritable env st h0 = connWritable env (h0, d0) := by
      simp [isControllerWritable, connWritable, hl0]
    have hrest_ne : ∀ p ∈ rest, p.1 ≠ h0 := by
      intro p hp hc
      exact hnd.1 (hc ▸ List.mem_map.mpr ⟨p, hp, rfl⟩)
    by_cases hw : connWritable env (h0, d0)
    · by_cases hth : env.writeThrows h0
      · -- writable and the write throws: the handle is removed in place
        rw [broadcastLoop_cons_throws env now ser h0 d0 rest st rm ws
          (by rw [hcw, hw]) (by simp [hth])]
        have hlook' : ∀ p ∈ rest,
            lookupConn (removeSSEConnection st h0).conns p.1 = some p.2 := by
          intro p hp
          rw [lookup_removeSSE_ne st h0 p.1 (fun hc => hrest_ne p hp hc.symm)]
          exact hlook p (by simp [hp])
        obtain ⟨i1, i2, i3, i4⟩ := ih (removeSSEConnection st h0) rm ws hnd.2 hlook'
        refine ⟨by simpa [List.filter_cons, hw] using i1,
          by simpa [List.filter_cons, hw, hth] using i2, ?_, ?_⟩
        · intro g hg
          simp only [List.map_cons, List.mem_cons, not_or] at hg
          rw [i3 g hg.2, lookup_removeSSE_ne st h0 g (fun hc => hg.1 hc.symm)]
        · intro p hp
          rcases List.mem_cons.mp hp with rfl | hp2
          · simp [i3 h0 hnd.1, hw, hth, lookup_removeSSE_self]
          · exact i4 p hp2
      · -- writable and the write succeeds: delivered, lastActivity refreshed
        rw [broadcastLoop_cons_ok env now ser h0 d0 rest st rm ws
          (by rw [hcw, hw]) (by simpa using hth)]
        have hlook' : ∀ p ∈ rest,
            lookupConn (touchConn st h0 now).conns p.1 = some p.2 := by
          intro p hp
          rw [lookup_touch_ne st h0 p.1 now (fun hc => hrest_ne p hp hc.symm)]
          exact hlook p (by simp [hp])
        obtain ⟨i1, i2, i3, i4⟩ :=
          ih (touchConn st h0 now) rm (ws ++ [(h0, sseMessage ser)]) hnd.2 hlook'
        refine ⟨by simpa [List.filter_cons, hw] using i1,
          by simpa [List.filter_cons, hw, hth] using i2, ?_, ?_⟩
        · intro g hg
          simp only [List.map_cons, List.mem_cons, not_or] at hg
          rw [i3 g hg.2, lookup_touch_ne st h0 g now (fun hc => hg.1 hc.symm)]
        · intro p hp
          rcases List.mem_cons.mp hp with rfl | hp2
          · simp [i3 h0 hnd.1, lookup_touch_self, hl0, hw, hth]
          · exact i4 p hp2
    · -- not writable: queued for removal, no write, state untouched in the loop
      rw [broadcastLoop_cons_unwritable env now ser h0 d0 rest st rm ws
        (by rw [hcw]; simpa using hw)]
      obtain ⟨i1, i2, i3, i4⟩ := ih st (rm ++ [h0]) ws hnd.2
        (fun p hp => hlook p (by simp [hp]))
      refine ⟨by simpa [List.filter_cons, hw] using i1,
        by simpa [List.filter_cons, hw] using i2, ?_, ?_⟩
      · intro g hg
        simp only [List.map_cons, List.mem_cons, not_or] at hg
        exact i3 g hg.2
      · intro p hp
        rcases List.mem_cons.mp hp with rfl | hp2
        · simp [i3 h0 hnd.1, hl0, hw]
        · exact i4 p hp2

theorem broadcastUpdate_eq (env : SSEEnv) (now : Nat) (ser : String) (st : SSEState) :
    broadcastUpdate env now ser st =
      ((broadcastLoop env now ser st.conns st [] []).2.1.foldl removeSSEConnection
          (broadcastLoop env now ser st.conns st [] []).1,
        (broadcastLoop env now ser st.conns st [] []).2.2) := by
  unfold broadcastUpdate
  rcases broadcastLoop env now ser st.conns st [] [] with ⟨a, b, c⟩
  rfl

/-- Claim C2: for every `broadcastUpdate(event)` and every registered
connection: an unwritable handle is queued for removal, receives no write, and
is gone from the registry after the broadcast; a writable handle whose write
does not throw receives exactly the serialized framed event
(`data: <JSON>\n\n`) and stays registered with `lastActivity` refreshed; a
writable handle whose write throws is silently unregistered and receives
nothing. The broadcast itself is a total function — every throwing `enqueue`
is caught inside `sendSSEMessage` — so it never raises to its caller no matter
how many connections fail, and the failing connections do not affect the
deliveries to the others. -/
theorem broadcastUpdate_spec (env : SSEEnv) (now : Nat) (serialized : String)
    (st : SSEState) (h : Nat) (d : SSEConnectionData)
    (hnd : (st.conns.map Prod.fst).Nodup) (hmem : (h, d) ∈ st.conns) :
    (connWritable env (h, d) = false →
      (∀ msg, (h, msg) ∉ (broadcastUpdate env now serialized st).2) ∧
      lookupConn (broadcastUpdate env now serialized st).1.conns h = none) ∧
    (connWritable env (h, d) = true → env.writeThrows h = false →
      (h, sseMessage serialized) ∈ (broadcastUpdate env now serialized st).2 ∧
      lookupConn (broadcastUpdate env now serialized st).1.conns h =
        some { d with lastActivity := now }) ∧
    (connWritable env (h, d) = true → env.writeThrows h = true →
      (∀ msg, (h, msg) ∉ (broadcastUpdate env now serialized st).2) ∧
      lookupConn (broadcastUpdate env now serialized st).1.conns h = none) := by
  obtain ⟨c1, c2, c3, c4⟩ := broadcastLoop_char env now serialized st.conns st [] [] hnd
    (fun p hp => lookupConn_eq_of_mem_nodup st.conns hnd p.1 p.2 (by simpa using hp))
  rw [broadcastUpdate_eq]
  have hwrites : ∀ msg, (h, msg) ∈ (broadcastLoop env now serialized st.conns st [] []).2.2 →
      ∃ d' : SSEConnectionData, (h, d') ∈ st.conns ∧
        (connWritable env (h, d') && !env.writeThrows h) = true ∧
        msg = sseMessage serialized := by
    intro msg hmm
    rw [c2] at hmm
    simp only [List.nil_append, List.mem_map, List.mem_filter] at hmm
    obtain ⟨p', ⟨hp'mem, hp'w⟩, hp'eq⟩ := hmm
    simp only [Prod.mk.injEq] at hp'eq
    obtain ⟨he1, he2⟩ := hp'eq
    refine ⟨p'.2, ?_, ?_, he2.symm⟩
    · rw [← he1, Prod.mk.eta]
      exact hp'mem
    · rw [← he1, Prod.mk.eta]
      exact hp'w
  refine ⟨?_, ?_, ?_⟩
  · intro hcw
    constructor
    · intro msg hmm
      obtain ⟨d', hd'mem, hd'w, _⟩ := hwrites msg hmm
      have : d' = d := mem_key_unique st.conns hnd h d' d hd'mem hmem
      rw [this, hcw] at hd'w
      simp at hd'w
    · apply lookup_foldl_removeSSE_of_mem
      rw [c1]
      simp only [List.nil_append, List.mem_map, List.mem_filter]
      exact ⟨(h, d), ⟨hmem, by simp [hcw]⟩, rfl⟩
  · intro hcw hth
    constructor
    · rw [c2]
      simp only [List.nil_append, List.mem_map, List.mem_filter]
      exact ⟨(h, d), ⟨hmem, by simp [hcw, hth]⟩, rfl⟩
    · have hnotrm : h ∉ (broadcastLoop env now serialized st.conns st [] []).2.1 := by
        rw [c1]
        simp only [List.nil_append, List.mem_map, List.mem_filter]
        rintro ⟨p', ⟨hp'mem, hp'w⟩, hp'eq⟩
        have hmem2 : (h, p'.2) ∈ st.conns := by
          rw [← hp'eq, Prod.mk.eta]
          exact hp'mem
        have hde : p'.2 = d := mem_key_unique st.conns hnd h p'.2 d hmem2 hmem
        have hpd : p' = (h, d) := by
          rw [← hp'eq, ← hde, Prod.mk.eta]
        rw [hpd] at hp'w
        simp [hcw] at hp'w
      rw [lookup_foldl_removeSSE_of_notmem _ _ _ hnotrm]
      have := c4 (h, d) hmem
      simpa [hcw, hth] using this
  · intro hcw hth
    constructor
    · intro msg hmm
      obtain ⟨d', hd'mem, hd'w, _⟩ := hwrites msg hmm
      have : d' = d := mem_key_unique st.conns hnd h d' d hd'mem hmem
      rw [this, hth] at hd'w
      simp at hd'w
    · apply lookup_foldl_removeSSE_none
      have := c4 (h, d) hmem
      simpa [hcw, hth] using this

/-- Witness for C2 at a concrete registry: handle 1 is writable (delivered and
retained), handle 2 is inactive (queued and removed, not written), handle 3's
write throws (silently unregistered, not written). -/
theorem broadcastUpdate_spec_witness :
    (1, sseMessage "E") ∈ (broadcastUpdate ⟨fun _ => true, fun g => g == 3⟩ 5 "E"
        ⟨[(1, ⟨true, some 10, 0, false⟩), (2, ⟨false, some 20, 0, false⟩),
          (3, ⟨true, some 30, 0, false⟩)], [10, 20, 30]⟩).2 ∧
    lookupConn (broadcastUpdate ⟨fun _ => true, fun g => g == 3⟩ 5 "E"
        ⟨[(1, ⟨true, some 10, 0, false⟩), (2, ⟨false, some 20, 0, false⟩),
          (3, ⟨true, some 30, 0, false⟩)], [10, 20, 30]⟩).1.conns 2 = none ∧
    lookupConn (broadcastUpdate ⟨fun _ => true, fun g => g == 3⟩ 5 "E"
        ⟨[(1, ⟨true, some 10, 0, false⟩), (2, ⟨false, some 20, 0, false⟩),
          (3, ⟨true, some 30, 0, false⟩)], [10, 20, 30]⟩).1.conns 3 = none := by
  refine ⟨?_, ?_, ?_⟩
  · exact ((broadcastUpdate_spec ⟨fun _ => true, fun g => g == 3⟩ 5 "E"
      ⟨[(1, ⟨true, some 10, 0, false⟩), (2, ⟨false, some 20, 0, false⟩),
        (3, ⟨true, some 30, 0, false⟩)], [10, 20, 30]⟩ 1 ⟨true, some 10, 0, false⟩
      (by decide) (by simp)).2.1 rfl rfl).1
  · exact ((broadcastUpdate_spec ⟨fun _ => true, fun g => g == 3⟩ 5 "E"
      ⟨[(1, ⟨true, some 10, 0, false⟩), (2, ⟨false, some 20, 0, false⟩),
        (3, ⟨true, some 30, 0, false⟩)], [10, 20, 30]⟩ 2 ⟨false, some 20, 0, false⟩
      (by decide) (by simp)).1 rfl).2
  · exact ((broadcastUpdate_spec ⟨fun _ => true, fun g => g == 3⟩ 5 "E"
      ⟨[(1, ⟨true, some 10, 0, false⟩), (2, ⟨false, some 20, 0, false⟩),
        (3, ⟨true, some 30, 0, false⟩)], [10, 20, 30]⟩ 3 ⟨true, some 30, 0, false⟩
      (by decide) (by simp)).2.2 rfl rfl).2

/-! ### Keep-alive and stale-sweep lemmas -/

theorem nodup_keys_filter (l : List (Nat × SSEConnectionData))
    (f : Nat × SSEConnectionData → Bool) (hnd : (l.map Prod.fst).Nodup) :
    ((l.filter f).map Prod.fst).Nodup :=
  hnd.sublist ((List.filter_sublist l).map Prod.fst)

theorem nodup_keys_removeSSE (st : SSEState) (g : Nat)
    (hnd : (st.conns.map Prod.fst).Nodup) :
    ((removeSSEConnection st g).conns.map Prod.fst).Nodup := by
  rw [conns_removeSSE]
  exact nodup_keys_filter _ _ hnd

theorem keys_touch (st : SSEState) (g : Nat) (now : Nat) :
    (touchConn st g now).conns.map Prod.fst = st.conns.map Prod.fst := by
  show (st.conns.map _).map Prod.fst = _
  rw [List.map_map]
  apply List.map_congr_left
  intro p _
  by_cases hp : p.1 = g <;> simp [hp]

theorem nodup_keys_foldl_removeSSE (rm : List Nat) : ∀ (st : SSEState),
    (st.conns.map Prod.fst).Nodup →
    (((rm.foldl removeSSEConnection st)).conns.map Prod.fst).Nodup := by
  induction rm with
  | nil => intro st hnd; exact hnd
  | cons g rest ih => intro st hnd; exact ih _ (nodup_keys_removeSSE st g hnd)

theorem nodup_keys_keepAliveTick (st : SSEState) (g now : Nat) (c t : Bool)
    (hnd : (st.conns.map Prod.fst).Nodup) :
    ((keepAliveTick st g now c t).conns.map Prod.fst).Nodup := by
  unfold keepAliveTick
  split
  · split
    · exact nodup_keys_removeSSE st g hnd
    · rw [keys_touch]; exact hnd
  · exact nodup_keys_removeSSE st g hnd

theorem nodup_keys_staleSweep (st : SSEState) (now : Nat)
    (hnd : (st.conns.map Prod.fst).Nodup) :
    ((staleSweep st now).conns.map Prod.fst).Nodup :=
  nodup_keys_foldl_removeSSE _ st hnd

theorem lookup_keepAliveTick_ne (st : SSEState) (g h now : Nat) (c t : Bool)
    (hgh : g ≠ h) :
    lookupConn (keepAliveTick st g now c t).conns h = lookupConn st.conns h := by
  unfold keepAliveTick
  split
  · split
    · exact lookup_removeSSE_ne st g h hgh
    · exact lookup_touch_ne st g h now hgh
  · exact lookup_removeSSE_ne st g h hgh

theorem lookup_keepAliveTick_self (st : SSEState) (h now : Nat)
    (d : SSEConnectionData) (hl : lookupConn st.conns h = some d)
    (ha : d.active = true) (hc : d.closed = false) :
    lookupConn (keepAliveTick st h now true false).conns h =
      some { d with lastActivity := now } := by
  unfold keepAliveTick
  rw [if_pos (by simp [isControllerWritable, hl, ha, hc]), if_neg (by simp)]
  rw [lookup_touch_self, hl]
  rfl

theorem staleSweep_preserves (st : SSEState) (now : Nat) (h : Nat)
    (d : SSEConnectionData) (hnd : (st.conns.map Prod.fst).Nodup)
    (hl : lookupConn st.conns h = some d) (hc : d.closed = false)
    (hfresh : now ≤ STALE_THRESHOLD_MS + d.lastActivity) :
    lookupConn (staleSweep st now).conns h = some d := by
  unfold staleSweep
  rw [lookup_foldl_removeSSE_of_notmem _ _ _ ?_]
  · exact hl
  · intro hmm
    simp only [List.mem_map, List.mem_filter] at hmm
    obtain ⟨p', ⟨hp'mem, hp'w⟩, hp'eq⟩ := hmm
    have hmem2 : (h, p'.2) ∈ st.conns := by
      rw [← hp'eq, Prod.mk.eta]
      exact hp'mem
    have hde : p'.2 = d :=
      mem_key_unique st.conns hnd h p'.2 d hmem2
        (by
          have := lookupConn_eq_of_mem_nodup st.conns hnd h p'.2 hmem2
          rw [hl] at this
          exact (Option.some.inj this) ▸ hmem2)
    rw [hde] at hp'w
    have h1 : ¬ (STALE_THRESHOLD_MS < now - d.lastActivity) := by
      simp [STALE_THRESHOLD_MS] at hfresh ⊢
      omega
    simp [h1, hc] at hp'w

/-- Claim C7: a registered, active, unclosed connection whose keep-alive
writes all succeed has `lastActivity` refreshed to the tick time on every
such write, and is never removed by the stale sweep as long as every sweep
falls within the 10-minute staleness window of the last successful keep-alive
write (`sweepsInWindow`) — even if it never receives a real broadcast. After
any such event sequence the connection is still registered, still active and
unclosed, and its `lastActivity` equals the time of the last successful
keep-alive write. -/
theorem kaAllOk_cons_ka (h g nw : Nat) (c t : Bool) (rest : List SSEEvent) :
    kaAllOk h (SSEEvent.keepAlive g nw c t :: rest) =
      ((if g = h then c && !t else true) && kaAllOk h rest) := rfl

theorem kaAllOk_cons_sweep (h nw : Nat) (rest : List SSEEvent) :
    kaAllOk h (SSEEvent.sweep nw :: rest) = kaAllOk h rest := by
  simp [kaAllOk]

theorem keepalive_prevents_sweep (evs : List SSEEvent) :
    ∀ (st : SSEState) (h : Nat) (d : SSEConnectionData),
    (st.conns.map Prod.fst).Nodup →
    lookupConn st.conns h = some d →
    d.active = true → d.closed = false →
    kaAllOk h evs = true →
    sweepsInWindow d.lastActivity h evs = true →
    lookupConn (runSSEEvents st evs).conns h =
      some { d with lastActivity := lastRefresh d.lastActivity h evs } := by
  induction evs with
  | nil =>
    intro st h d _ hl _ _ _ _
    simpa [runSSEEvents, lastRefresh] using hl
  | cons e rest ih =>
    intro st h d hnd hl ha hc hka hsw
    cases e with
    | keepAlive g nw c t =>
      rw [kaAllOk_cons_ka, Bool.and_eq_true] at hka
      obtain ⟨hhead, htail⟩ := hka
      by_cases hgh : g = h
      · subst hgh
        rw [if_pos rfl, Bool.and_eq_true, Bool.not_eq_true'] at hhead
        obtain ⟨rfl, rfl⟩ := hhead
        have hstep := lookup_keepAliveTick_self st g nw d hl ha hc
        have hnd' := nodup_keys_keepAliveTick st g nw true false hnd
        have hrest := ih (keepAliveTick st g nw true false) g
          { d with lastActivity := nw } hnd' hstep ha hc htail
          (by simpa [sweepsInWindow] using hsw)
        rw [runSSEEvents, hrest]
        simp [lastRefresh]
      · have hstep := lookup_keepAliveTick_ne st g h nw c t hgh
        have hnd' := nodup_keys_keepAliveTick st g nw c t hnd
        have hrest := ih (keepAliveTick st g nw c t) h d hnd' (hstep.trans hl)
          ha hc htail (by simpa [sweepsInWindow, hgh] using hsw)
        rw [runSSEEvents, hrest]
        simp [lastRefresh, hgh]
    | sweep nw =>
      have hsw2 :
          nw ≤ STALE_THRESHOLD_MS + d.lastActivity ∧
            sweepsInWindow d.lastActivity h rest = true := by
        simpa [sweepsInWindow] using hsw
      have hstep := staleSweep_preserves st nw h d hnd hl hc hsw2.1
      have hnd' := nodup_keys_staleSweep st nw hnd
      have hrest := ih (staleSweep st nw) h d hnd' hstep ha hc
        (by simpa [kaAllOk_cons_sweep] using hka) hsw2.2
      rw [runSSEEvents, hrest]
      simp [lastRefresh]

/-- Witness for C7: a connection registered at time 0 with succeeding
keep-alives at 30 s and 330 s survives sweeps at 300 s and 600 s, with
`lastActivity` ending at 330000. -/
theorem keepalive_prevents_sweep_witness :
    lookupConn (runSSEEvents ⟨[(1, ⟨true, some 7, 0, false⟩)], [7]⟩
        [SSEEvent.keepAlive 1 30000 true false, SSEEvent.sweep 300000,
          SSEEvent.keepAlive 1 330000 true false, SSEEvent.sweep 600000]).conns 1 =
      some ⟨true, some 7, 330000, false⟩ :=
  keepalive_prevents_sweep
    [SSEEvent.keepAlive 1 30000 true false, SSEEvent.sweep 300000,
      SSEEvent.keepAlive 1 330000 true false, SSEEvent.sweep 600000]
    ⟨[(1, ⟨true, some 7, 0, false⟩)], [7]⟩ 1 ⟨true, some 7, 0, false⟩
    (by decide) rfl rfl rfl (by decide) (by decide)

/-! ### Base64 and UTF-8 round trips (for the key-builder claim) -/

theorem b64Char_ne_pad : ∀ n : Nat, b64Char n ≠ '=' := by
  intro n
  rcases Nat.lt_or_ge n 64 with hn | hn
  · have hfin : ∀ i : Fin 64, b64Char i.val ≠ '=' := by decide
    exact hfin ⟨n, hn⟩
  · have : b64Char n = 'A' := by
      unfold b64Char
      exact List.getD_eq_default _ _ (by simpa [b64Alphabet] using hn)
    simp [this]

theorem b64Val_b64Char : ∀ n : Nat, n < 64 → b64Val (b64Char n) = n := by
  have hfin : ∀ i : Fin 64, b64Val (b64Char i.val) = i.val := by decide
  intro n hn
  exact hfin ⟨n, hn⟩

theorem base64_roundtrip : ∀ bs : List Nat, (∀ b ∈ bs, b < 256) →
    base64Decode (base64Encode bs) = some bs := by
  intro bs
  induction bs using base64Encode.induct with
  | case1 =>
    intro _
    rfl
  | case2 a =>
    intro hb
    have ha : a < 256 := hb a (by simp)
    simp only [base64Encode, base64Decode, b64DecodeChunk, if_pos rfl]
    rw [b64Val_b64Char (a / 4) (by omega), b64Val_b64Char (a % 4 * 16) (by omega)]
    have h1 : a / 4 * 4 + a % 4 * 16 / 16 = a := by omega
    simp [h1]
    omega
  | case3 a b =>
    intro hb
    have ha : a < 256 := hb a (by simp)
    have hbb : b < 256 := hb b (by simp)
    simp only [base64Encode, base64Decode, b64DecodeChunk,
      if_neg (b64Char_ne_pad (b % 16 * 4)), if_pos rfl]
    rw [b64Val_b64Char (a / 4) (by omega), b64Val_b64Char (a % 4 * 16 + b / 16) (by omega),
      b64Val_b64Char (b % 16 * 4) (by omega)]
    have h1 : a / 4 * 4 + (a % 4 * 16 + b / 16) / 16 = a := by omega
    have h2 : (a % 4 * 16 + b / 16) % 16 * 16 + b % 16 * 4 / 4 = b := by omega
    simp [h1, h2]
    omega
  | case4 a b c rest ih =>
    intro hb
    have ha : a < 256 := hb a (by simp)
    have hbb : b < 256 := hb b (by simp)
    have hc : c < 256 := hb c (by simp)
    have hrest : ∀ x ∈ rest, x < 256 := fun x hx => hb x (by simp [hx])
    simp only [base64Encode, base64Decode, b64DecodeChunk,
      if_neg (b64Char_ne_pad (b % 16 * 4 + c / 64)), if_neg (b64Char_ne_pad (c % 64))]
    rw [ih hrest]
    rw [b64Val_b64Char (a / 4) (by omega), b64Val_b64Char (a % 4 * 16 + b / 16) (by omega),
      b64Val_b64Char (b % 16 * 4 + c / 64) (by omega), b64Val_b64Char (c % 64) (by omega)]
    have h1 : a / 4 * 4 + (a % 4 * 16 + b / 16) / 16 = a := by omega
    have h2 : (a % 4 * 16 + b / 16) % 16 * 16 + (b % 16 * 4 + c / 64) / 4 = b := by omega
    have h3 : (b % 16 * 4 + c / 64) % 4 * 64 + c % 64 = c := by omega
    simp [h1, h2, h3]

theorem char_toNat_lt (c : Char) : c.toNat < 1114112 := by
  have h := c.valid
  show c.val.toNat < 1114112
  rcases h with h | ⟨h1, h2⟩ <;> omega

theorem utf8Bytes_lt (c : Char) : ∀ b ∈ utf8Bytes c, b < 256 := by
  have hn := char_toNat_lt c
  intro b hb
  unfold utf8Bytes at hb
  by_cases h1 : c.toNat < 128
  · rw [if_pos h1] at hb
    simp at hb
    omega
  · rw [if_neg h1] at hb
    by_cases h2 : c.toNat < 2048
    · rw [if_pos h2] at hb
      simp at hb
      rcases hb with rfl | rfl <;> omega
    · rw [if_neg h2] at hb
      by_cases h3 : c.toNat < 65536
      · rw [if_pos h3] at hb
        simp at hb
        rcases hb with rfl | rfl | rfl <;> omega
      · rw [if_neg h3] at hb
        simp at hb
        rcases hb with rfl | rfl | rfl | rfl <;> omega

theorem utf8Bytes_length_pos (c : Char) : 0 < (utf8Bytes c).length := by
  unfold utf8Bytes
  split
  · simp
  · split
    · simp
    · split <;> simp

theorem utf8DecodeChar_cons (b0 : Nat) (rest : List Nat) :
    utf8DecodeChar (b0 :: rest) =
      if b0 < 128 then some (Char.ofNat b0, rest)
      else if b0 < 192 then none
      else if b0 < 224 then
        match rest with
        | b1 :: rest2 => some (Char.ofNat ((b0 - 192) * 64 + (b1 - 128)), rest2)
        | [] => none
      else if b0 < 240 then
        match rest with
        | b1 :: b2 :: rest3 =>
          some (Char.ofNat ((b0 - 224) * 4096 + (b1 - 128) * 64 + (b2 - 128)), rest3)
        | _ => none
      else
        match rest with
        | b1 :: b2 :: b3 :: rest4 =>
          some (Char.ofNat ((b0 - 240) * 262144 + (b1 - 128) * 4096 + (b2 - 128) * 64
            + (b3 - 128)), rest4)
        | _ => none := rfl

theorem utf8DecodeChar_bytes (c : Char) (l : List Nat) :
    utf8DecodeChar (utf8Bytes c ++ l) = some (c, l) := by
  have hn := char_toNat_lt c
  unfold utf8Bytes
  by_cases h1 : c.toNat < 128
  · rw [if_pos h1]
    show utf8DecodeChar (c.toNat :: l) = _
    rw [utf8DecodeChar_cons, if_pos h1, Char.ofNat_toNat]
  · rw [if_neg h1]
    by_cases h2 : c.toNat < 2048
    · rw [if_pos h2]
      show utf8DecodeChar (_ :: _ :: l) = _
      rw [utf8DecodeChar_cons, if_neg (by omega), if_neg (by omega), if_pos (by omega)]
      have hx : (192 + c.toNat / 64 - 192) * 64 + (128 + c.toNat % 64 - 128) = c.toNat := by
        omega
      simp only [hx, Char.ofNat_toNat]
    · rw [if_neg h2]
      by_cases h3 : c.toNat < 65536
      · rw [if_pos h3]
        show utf8DecodeChar (_ :: _ :: _ :: l) = _
        rw [utf8DecodeChar_cons, if_neg (by omega), if_neg (by omega), if_neg (by omega),
          if_pos (by omega)]
        have hx : (224 + c.toNat / 4096 - 224) * 4096 + (128 + c.toNat / 64 % 64 - 128) * 64
            + (128 + c.toNat % 64 - 128) = c.toNat := by omega
        simp only [hx, Char.ofNat_toNat]
      · rw [if_neg h3]
        show utf8DecodeChar (_ :: _ :: _ :: _ :: l) = _
        rw [utf8DecodeChar_cons, if_neg (by omega), if_neg (by omega), if_neg (by omega),
          if_neg (by omega)]
        have hx : (240 + c.toNat / 262144 - 240) * 262144
            + (128 + c.toNat / 4096 % 64 - 128) * 4096
            + (128 + c.toNat / 64 % 64 - 128) * 64 + (128 + c.toNat % 64 - 128) = c.toNat := by
          omega
        simp only [hx, Char.ofNat_toNat]

theorem utf8DecodeAux_flatMap : ∀ (cs : List Char) (fuel : Nat),
    (cs.flatMap utf8Bytes).length ≤ fuel →
    utf8DecodeAux fuel (cs.flatMap utf8Bytes) = some cs := by
  intro cs
  induction cs with
  | nil => intro fuel _; cases fuel <;> rfl
  | cons c rest ih =>
    intro fuel hf
    obtain ⟨b, bs, hbs⟩ : ∃ b bs, utf8Bytes c = b :: bs := by
      rcases hb : utf8Bytes c with _ | ⟨b, bs⟩
      · have := utf8Bytes_length_pos c
        rw [hb] at this
        simp at this
      · exact ⟨b, bs, rfl⟩
    rw [List.flatMap_cons, hbs] at hf ⊢
    cases fuel with
    | zero => simp at hf
    | succ fuel2 =>
      show utf8DecodeAux (fuel2 + 1) (b :: (bs ++ rest.flatMap utf8Bytes)) = _
      have hchunk : utf8DecodeChar (b :: (bs ++ rest.flatMap utf8Bytes)) =
          some (c, rest.flatMap utf8Bytes) := by
        have := utf8DecodeChar_bytes c (rest.flatMap utf8Bytes)
        rwa [hbs, List.cons_append] at this
      have hrec : utf8DecodeAux fuel2 (rest.flatMap utf8Bytes) = some rest := by
        apply ih
        simp only [List.cons_append, List.length_cons, List.length_append] at hf
        omega
      show (match utf8DecodeChar (b :: (bs ++ rest.flatMap utf8Bytes)) with
        | some (c2, rest2) => (utf8DecodeAux fuel2 rest2).map (fun cs => c2 :: cs)
        | none => none) = _
      rw [hchunk]
      simp [hrec]

theorem utf8_roundtrip_list (cs : List Char) :
    utf8Decode (cs.flatMap utf8Bytes) = some cs :=
  utf8DecodeAux_flatMap cs _ le_rfl

theorem utf8Encode_roundtrip (s : String) : utf8Decode (utf8Encode s) = some s.data :=
  utf8_roundtrip_list s.data

/-! ### Cache key builder lemmas -/

theorem takeWhile_until_colon (p : List Char) (hs : ∀ c ∈ p, c ≠ ':') (rest : List Char) :
    (p ++ ':' :: rest).takeWhile (fun c => c != ':') = p := by
  induction p with
  | nil => simp [List.takeWhile_cons]
  | cons a l ih =>
    have ha : a ≠ ':' := hs a (by simp)
    simp [List.takeWhile_cons, ha, ih (fun c hc => hs c (by simp [hc]))]

theorem keyTag_of_data (t : List Char) (ht : ∀ c ∈ t, c ≠ ':') (s : String)
    (rest : List Char) (hd : s.data = t ++ ':' :: rest) : keyTag s = t := by
  unfold keyTag
  rw [hd]
  exact takeWhile_until_colon t ht rest

theorem keyTag_articles (q : Option String) :
    keyTag (CacheKeys.articles q) = ("articles").data := by
  rcases q with _ | v
  · decide
  · by_cases hv : v = ""
    · simp only [CacheKeys.articles, if_pos hv]
      decide
    · simp only [CacheKeys.articles, if_neg hv]
      exact keyTag_of_data ("articles").data (by decide) _ v.data (by
        rw [String.data_append,
          show ("articles:").data = ("articles").data ++ [':'] from by decide,
          List.append_assoc, List.singleton_append])

theorem keyTag_session (sid : String) :
    keyTag (CacheKeys.session sid) = ("session").data :=
  keyTag_of_data ("session").data (by decide) _ sid.data (by
    rw [show CacheKeys.session sid = "session:" ++ sid from rfl, String.data_append,
      show ("session:").data = ("session").data ++ [':'] from by decide,
      List.append_assoc, List.singleton_append])

theorem keyTag_bookmarks (sid : String) :
    keyTag (CacheKeys.bookmarks sid) = ("bookmarks").data :=
  keyTag_of_data ("bookmarks").data (by decide) _ sid.data (by
    rw [show CacheKeys.bookmarks sid = "bookmarks:" ++ sid from rfl, String.data_append,
      show ("bookmarks:").data = ("bookmarks").data ++ [':'] from by decide,
      List.append_assoc, List.singleton_append])

theorem keyTag_bookmarkData (sid : String) :
    keyTag (CacheKeys.bookmarkData sid) = ("bookmark_data").data :=
  keyTag_of_data ("bookmark_data").data (by decide) _ sid.data (by
    rw [show CacheKeys.bookmarkData sid = "bookmark_data:" ++ sid from rfl,
      String.data_append,
      show ("bookmark_data:").data = ("bookmark_data").data ++ [':'] from by decide,
      List.append_assoc, List.singleton_append])

theorem keyTag_linkedinContent (aid : String) :
    keyTag (CacheKeys.linkedinContent aid) = ("linkedin").data :=
  keyTag_of_data ("linkedin").data (by decide) _ aid.data (by
    rw [show CacheKeys.linkedinContent aid = "linkedin:" ++ aid from rfl,
      String.data_append,
      show ("linkedin:").data = ("linkedin").data ++ [':'] from by decide,
      List.append_assoc, List.singleton_append])

theorem keyTag_searchResults (q : String) :
    keyTag (CacheKeys.searchResults q) = ("search").data :=
  keyTag_of_data ("search").data (by decide) _ (bufferBase64 q).data (by
    rw [show CacheKeys.searchResults q = "search:" ++ bufferBase64 q from rfl,
      String.data_append,
      show ("search:").data = ("search").data ++ [':'] from by decide,
      List.append_assoc, List.singleton_append])

theorem keyTag_userBookmarkCount (sid : String) :
    keyTag (CacheKeys.userBookmarkCount sid) = ("bookmark_count").data :=
  keyTag_of_data ("bookmark_count").data (by decide) _ sid.data (by
    rw [show CacheKeys.userBookmarkCount sid = "bookmark_count:" ++ sid from rfl,
      String.data_append,
      show ("bookmark_count:").data = ("bookmark_count").data ++ [':'] from by decide,
      List.append_assoc, List.singleton_append])

theorem searchResults_reversible (q : String) :
    searchResultsDecode (CacheKeys.searchResults q) = some q := by
  unfold searchResultsDecode CacheKeys.searchResults bufferBase64
  rw [String.data_append]
  rw [show (7 : Nat) = ("search:").data.length from by decide, List.take_left,
    List.drop_left]
  rw [if_pos rfl]
  have hb : ∀ b ∈ utf8Encode q, b < 256 := by
    intro b hbm
    rw [show utf8Encode q = q.data.flatMap utf8Bytes from rfl] at hbm
    obtain ⟨c, hc, hbc⟩ := List.mem_flatMap.mp hbm
    exact utf8Bytes_lt c b hbc
  show (base64Decode (base64Encode (utf8Encode q))).bind _ = _
  rw [base64_roundtrip (utf8Encode q) hb]
  show (utf8Decode (q.data.flatMap utf8Bytes)).map String.mk = some q
  rw [utf8_roundtrip_list]
  rfl

/-- Claim C9: every cache key builder is a deterministic function of its
identifier(s); `searchResults` uses a reversible encoding of the query string
(UTF-8 followed by base64, inverted by `searchResultsDecode`); and for all
identifiers, two distinct builders never produce the same key string — each
builder's output starts with its own colon-terminated resource tag, and the
seven tags are pairwise distinct. -/
theorem cacheKeys_builders_sound :
    (∀ a b : Option String, a = b → CacheKeys.articles a = CacheKeys.articles b) ∧
    (∀ a b : String, a = b → CacheKeys.session a = CacheKeys.session b) ∧
    (∀ a b : String, a = b → CacheKeys.bookmarks a = CacheKeys.bookmarks b) ∧
    (∀ a b : String, a = b → CacheKeys.bookmarkData a = CacheKeys.bookmarkData b) ∧
    (∀ a b : String, a = b → CacheKeys.linkedinContent a = CacheKeys.linkedinContent b) ∧
    (∀ a b : String, a = b → CacheKeys.searchResults a = CacheKeys.searchResults b) ∧
    (∀ a b : String, a = b → CacheKeys.userBookmarkCount a = CacheKeys.userBookmarkCount b) ∧
    (∀ q : String, searchResultsDecode (CacheKeys.searchResults q) = some q) ∧
    (∀ (x : Option String) (y : String), CacheKeys.articles x ≠ CacheKeys.session y) ∧
    (∀ (x : Option String) (y : String), CacheKeys.articles x ≠ CacheKeys.bookmarks y) ∧
    (∀ (x : Option String) (y : String), CacheKeys.articles x ≠ CacheKeys.bookmarkData y) ∧
    (∀ (x : Option String) (y : String), CacheKeys.articles x ≠ CacheKeys.linkedinContent y) ∧
    (∀ (x : Option String) (y : String), CacheKeys.articles x ≠ CacheKeys.searchResults y) ∧
    (∀ (x : Option String) (y : String),
      CacheKeys.articles x ≠ CacheKeys.userBookmarkCount y) ∧
    (∀ x y : String, CacheKeys.session x ≠ CacheKeys.bookmarks y) ∧
    (∀ x y : String, CacheKeys.session x ≠ CacheKeys.bookmarkData y) ∧
    (∀ x y : String, CacheKeys.session x ≠ CacheKeys.linkedinContent y) ∧
    (∀ x y : String, CacheKeys.session x ≠ CacheKeys.searchResults y) ∧
    (∀ x y : String, CacheKeys.session x ≠ CacheKeys.userBookmarkCount y) ∧
    (∀ x y : String, CacheKeys.bookmarks x ≠ CacheKeys.bookmarkData y) ∧
    (∀ x y : String, CacheKeys.bookmarks x ≠ CacheKeys.linkedinContent y) ∧
    (∀ x y : String, CacheKeys.bookmarks x ≠ CacheKeys.searchResults y) ∧
    (∀ x y : String, CacheKeys.bookmarks x ≠ CacheKeys.userBookmarkCount y) ∧
    (∀ x y : String, CacheKeys.bookmarkData x ≠ CacheKeys.linkedinContent y) ∧
    (∀ x y : String, CacheKeys.bookmarkData x ≠ CacheKeys.searchResults y) ∧
    (∀ x y : String, CacheKeys.bookmarkData x ≠ CacheKeys.userBookmarkCount y) ∧
    (∀ x y : String, CacheKeys.linkedinContent x ≠ CacheKeys.searchResults y) ∧
    (∀ x y : String, CacheKeys.linkedinContent x ≠ CacheKeys.userBookmarkCount y) ∧
    (∀ x y : String, CacheKeys.searchResults x ≠ CacheKeys.userBookmarkCount y) := by
  refine ⟨fun a b h => by rw [h], fun a b h => by rw [h], fun a b h => by rw [h],
    fun a b h => by rw [h], fun a b h => by rw [h], fun a b h => by rw [h],
    fun a b h => by rw [h], searchResults_reversible,
    ?_, ?_, ?_, ?_, ?_, ?_, ?_, ?_, ?_, ?_, ?_, ?_, ?_, ?_, ?_, ?_, ?_, ?_, ?_, ?_, ?_⟩
  all_goals
    intro x y heq
    have ht := congrArg keyTag heq
    simp only [keyTag_articles, keyTag_session, keyTag_bookmarks, keyTag_bookmarkData,
      keyTag_linkedinContent, keyTag_searchResults, keyTag_userBookmarkCount] at ht
    exact absurd ht (by decide)

/-- Witness for C9 at concrete identifiers: determinism of `session`,
reversibility of `searchResults` on a concrete query, and distinctness of the
`bookmarks` and `bookmark_data` key spaces on the same session id. -/
theorem cacheKeys_builders_sound_witness :
    CacheKeys.session "s1" = CacheKeys.session "s1" ∧
    searchResultsDecode (CacheKeys.searchResults "hello world") = some "hello world" ∧
    CacheKeys.bookmarks "s1" ≠ CacheKeys.bookmarkData "s1" := by
  obtain ⟨d1, d2, d3, d4, d5, d6, d7, hrev, p1, p2, p3, p4, p5, p6, p7, p8, p9, p10,
    p11, p12, p13, p14, p15, p16, p17, p18, p19, p20, p21⟩ := cacheKeys_builders_sound
  exact ⟨d2 "s1" "s1" rfl, hrev "hello world", p12 "s1" "s1"⟩
